import Mathlib

/-!
# Adventurer — verification of the real-time simulation layer

A shallow embedding, in Lean 4, of the simulation code of the Adventurer
repository (a 2D side-scrolling action game built on an external physics and
rendering engine), together with theorems settling the frozen claims about it.

Modelling conventions:

* Machine `number`s (timers, velocities, positions, amounts) are embedded as
  rationals (`ℚ`); the source performs only `+ - * min max abs` and
  comparisons on them in all code relevant to the claims.
* The physics engine is external: each per-tick `update` model receives the
  body state (position, velocity, blocked flags) as an input, exactly as the
  source reads it from `this.body`, and the velocity assignments the code
  performs are recorded in the output state.
* The engine's `Distance.Between(x1,y1,x2,y2) < r` (a Euclidean square root)
  is rendered in the equivalent squared form
  `(x2-x1)^2 + (y2-y1)^2 < r^2`, valid for every threshold `r ≥ 0` that the
  source uses; likewise for `> r`.
* Library trigonometry (`Math.sin`, `Math.cos` of `atan2` angles), which only
  feeds velocity components never compared against thresholds, is supplied to
  the tick model as an input, exactly like the externally-integrated body
  state.
* Cosmetic effects (tint, alpha, tween animations, sounds, event emission)
  change no simulation state and are not modelled.
* `src/config.ts` is not part of the given sources; configuration constants
  are therefore parameters of the model, constrained only by the hypotheses
  the theorems state.
-/

namespace Adventurer

/-- `Phaser.Math.Linear(a, b, t) = a + (b - a) * t`. -/
def lerp (a b t : ℚ) : ℚ := a + (b - a) * t

/-- `Phaser.Math.Distance.Between(x1,y1,x2,y2) < r`, rendered in squared form
(equivalent to the source's square-root comparison for `0 ≤ r`). -/
def distLtB (x1 y1 x2 y2 r : ℚ) : Bool :=
  decide ((x2 - x1) ^ 2 + (y2 - y1) ^ 2 < r ^ 2)

/-- `Phaser.Math.Distance.Between(x1,y1,x2,y2) > r`, rendered in squared form
(equivalent to the source's square-root comparison for `0 ≤ r`). -/
def distGtB (x1 y1 x2 y2 r : ℚ) : Bool :=
  decide (r ^ 2 < (x2 - x1) ^ 2 + (y2 - y1) ^ 2)

/-! ## GameState (src/systems/GameState.ts)

The coin-ledger portion of the static `GameState` class: the fields touched by
`addCoins` / `spendCoins` / `recordKill` / `recordDeath`. -/

structure Economy where
  coins : ℚ
  totalCoinsCollected : ℚ
  enemiesKilled : ℕ
  deaths : ℕ
  deriving Repr, DecidableEq

/-- `GameState.addCoins(amount)`. -/
def addCoins (g : Economy) (amount : ℚ) : Economy :=
  { g with coins := g.coins + amount,
           totalCoinsCollected := g.totalCoinsCollected + amount }

/-- `GameState.spendCoins(amount)`: returns the boolean result together with
the updated state. -/
def spendCoins (g : Economy) (amount : ℚ) : Bool × Economy :=
  if amount ≤ g.coins then (true, { g with coins := g.coins - amount })
  else (false, g)

/-- `GameState.recordKill()`. -/
def recordKill (g : Economy) : Economy :=
  { g with enemiesKilled := g.enemiesKilled + 1 }

/-- `GameState.recordDeath()`. -/
def recordDeath (g : Economy) : Economy :=
  { g with deaths := g.deaths + 1 }

/-! ## DynamicCamera shake (src/systems/DynamicCamera.ts) -/

/-- The shake session of `DynamicCamera`: `shakeIntensity`, `shakeDuration`,
`shakeTimer`. -/
structure ShakeState where
  shakeIntensity : ℚ
  shakeDuration : ℚ
  shakeTimer : ℚ
  deriving Repr, DecidableEq

/-- `DynamicCamera.shake(intensity, duration?)`: intensity rises to the max of
current and requested; the duration (defaulted from the intensity when
omitted) replaces both `shakeDuration` and `shakeTimer`. -/
def shake (s : ShakeState) (intensity : ℚ) (duration : Option ℚ) : ShakeState :=
  let d := duration.getD (intensity * 200 + 100)
  { shakeIntensity := max s.shakeIntensity intensity,
    shakeDuration := d,
    shakeTimer := d }

/-- `DynamicCamera.shakeSmall()`. -/
def shakeSmall (s : ShakeState) : ShakeState := shake s (2/10) (some 80)

/-- `DynamicCamera.shakeMedium()`. -/
def shakeMedium (s : ShakeState) : ShakeState := shake s (5/10) (some 150)

/-- `DynamicCamera.shakeHeavy()`. -/
def shakeHeavy (s : ShakeState) : ShakeState := shake s (8/10) (some 300)

/-! ## CameraZone and CameraZoneManager (src/systems/GameState.ts, camera-zone
part of the file) -/

/-- `Phaser.Geom.Rectangle` (position plus size). -/
structure Rect where
  x : ℚ
  y : ℚ
  w : ℚ
  h : ℚ
  deriving Repr, DecidableEq

/-- `Phaser.Geom.Rectangle.Contains(rect, x, y)`: false on degenerate
rectangles, otherwise inclusive containment on both edges. -/
def rectContains (r : Rect) (px py : ℚ) : Bool :=
  if r.w ≤ 0 ∨ r.h ≤ 0 then false
  else decide (r.x ≤ px ∧ px ≤ r.x + r.w ∧ r.y ≤ py ∧ py ≤ r.y + r.h)

/-- `CameraZone`: bounds, target zoom, name, priority, optional one-shot flag,
and the private `hasTriggered` latch. -/
structure CameraZone where
  bounds : Rect
  zoom : ℚ
  name : String
  priority : ℚ
  oneShot : Bool
  hasTriggered : Bool
  deriving Repr, DecidableEq

/-- `CameraZone.contains(x, y)`: returns the boolean result and the updated
zone (the first true evaluation of a one-shot zone latches `hasTriggered`). -/
def zoneContains (z : CameraZone) (px py : ℚ) : Bool × CameraZone :=
  if z.oneShot && z.hasTriggered then (false, z)
  else
    let result := rectContains z.bounds px py
    (result, if result && z.oneShot then { z with hasTriggered := true } else z)

/-- `CameraZone.reset()`. -/
def zoneReset (z : CameraZone) : CameraZone := { z with hasTriggered := false }

/-- Run a sequence of `contains` calls against one zone, collecting the
returned booleans and threading the zone state. -/
def zoneRunContains (z : CameraZone) : List (ℚ × ℚ) → List Bool × CameraZone
  | [] => ([], z)
  | p :: ps =>
      let r := zoneContains z p.1 p.2
      let rest := zoneRunContains r.2 ps
      (r.1 :: rest.1, rest.2)

/-- The boolean a single `contains` call would return (its value part). -/
def zoneQualifies (z : CameraZone) (px py : ℚ) : Bool :=
  (zoneContains z px py).1

/-- `CameraZoneManager.addZone(zone)`: `push` followed by
`sort((a, b) => b.priority - a.priority)`.  JavaScript's `Array.prototype.sort`
is stable (ES2019), and the manager's list is already sorted before the push,
so the call inserts the new zone after every zone of priority `≥` its own. -/
def addZone (zones : List CameraZone) (z : CameraZone) : List CameraZone :=
  match zones with
  | [] => [z]
  | w :: ws => if z.priority ≤ w.priority then w :: addZone ws z else z :: w :: ws

/-- The manager's zone list after adding the zones of `zs` in order, starting
from an empty manager. -/
def buildZones (zs : List CameraZone) : List CameraZone :=
  zs.foldl addZone []

/-- `CameraZoneManager.getActiveZone(x, y)` (the returned value): the first
zone of the manager's list whose `contains` evaluates true. -/
def getActiveZone (zones : List CameraZone) (px py : ℚ) : Option CameraZone :=
  zones.find? (fun z => zoneQualifies z px py)

/-- One step of the specification-side selection of C6. -/
def specStep (px py : ℚ) (best : Option CameraZone) (z : CameraZone) :
    Option CameraZone :=
  if zoneQualifies z px py then
    match best with
    | none => some z
    | some w => if w.priority < z.priority then some z else some w
  else best

/-- Specification-side definition for C6, written from the claim's words: the
zone of highest priority among all non-fired zones (in insertion order) whose
rectangle contains the point, the first-added one among equal priorities. -/
def specActiveZone (zs : List CameraZone) (px py : ℚ) : Option CameraZone :=
  zs.foldl (specStep px py) none

/-- Descending-priority sortedness of a manager list. -/
def SortedDesc (zones : List CameraZone) : Prop :=
  zones.Pairwise (fun a b => b.priority ≤ a.priority)

/-! ## Player (src/entities/Player.ts)

The player controller.  `CONFIG.PLAYER` lives in the (absent) `src/config.ts`,
so its constants are a parameter structure. -/

/-- The `CONFIG.PLAYER` constants used by `Player`. -/
structure PlayerConfig where
  MAX_HEALTH : ℚ
  ATTACK_DAMAGE : ℚ
  MOVE_SPEED : ℚ
  JUMP_FORCE : ℚ
  JUMP_CUT_MULTIPLIER : ℚ
  MAX_FALL_SPEED : ℚ
  COYOTE_TIME : ℚ
  JUMP_BUFFER_TIME : ℚ
  INVINCIBILITY_TIME : ℚ
  KNOCKBACK_FORCE : ℚ
  PROJECTILE_COOLDOWN : ℚ
  deriving Repr, DecidableEq

/-- The player's mutable simulation state: stats, flags, the five countdown
timers, and the physics body's velocity as the controller last set it. -/
structure PlayerState where
  health : ℚ
  maxHealth : ℚ
  isAttacking : Bool
  isInvincible : Bool
  facingRight : Bool
  isDead : Bool
  coyoteTimer : ℚ
  jumpBufferTimer : ℚ
  invincibilityTimer : ℚ
  attackTimer : ℚ
  projectileCooldown : ℚ
  vx : ℚ
  vy : ℚ
  deriving Repr, DecidableEq

/-- The per-tick inputs `Player.update` reads: the frame delta, the grounded
query of the physics body, and the key states of the five input lines. -/
structure PlayerInput where
  delta : ℚ
  onGround : Bool
  leftDown : Bool
  rightDown : Bool
  jumpJustPressed : Bool
  jumpDown : Bool
  attackJustPressed : Bool
  subWeaponJustPressed : Bool
  deriving Repr, DecidableEq

/-- The coyote-timer stage of `Player.updateTimers`: reset while grounded,
count down while airborne and positive. -/
def tickCoyote (cfg : PlayerConfig) (s : PlayerState) (delta : ℚ)
    (onGround : Bool) : PlayerState :=
  if onGround then { s with coyoteTimer := cfg.COYOTE_TIME }
  else if 0 < s.coyoteTimer then
    { s with coyoteTimer := s.coyoteTimer - delta }
  else s

/-- The jump-buffer countdown stage of `Player.updateTimers`. -/
def tickJumpBuffer (s : PlayerState) (delta : ℚ) : PlayerState :=
  if 0 < s.jumpBufferTimer then
    { s with jumpBufferTimer := s.jumpBufferTimer - delta }
  else s

/-- The attack-timer stage of `Player.updateTimers`. -/
def tickAttackTimer (s : PlayerState) (delta : ℚ) : PlayerState :=
  if 0 < s.attackTimer then
    let t := s.attackTimer - delta
    { s with attackTimer := t,
             isAttacking := if t ≤ 0 then false else s.isAttacking }
  else s

/-- The invincibility-timer stage of `Player.updateTimers`. -/
def tickInvincibility (s : PlayerState) (delta : ℚ) : PlayerState :=
  if 0 < s.invincibilityTimer then
    let t := s.invincibilityTimer - delta
    { s with invincibilityTimer := t,
             isInvincible := if t ≤ 0 then false else s.isInvincible }
  else s

/-- The projectile-cooldown stage of `Player.updateTimers`. -/
def tickProjectileCooldown (s : PlayerState) (delta : ℚ) : PlayerState :=
  if 0 < s.projectileCooldown then
    { s with projectileCooldown := s.projectileCooldown - delta }
  else s

/-- `Player.updateTimers(delta, onGround)`: the five countdown stages in
source order. -/
def updateTimers (cfg : PlayerConfig) (s : PlayerState) (delta : ℚ)
    (onGround : Bool) : PlayerState :=
  tickProjectileCooldown
    (tickInvincibility
      (tickAttackTimer
        (tickJumpBuffer (tickCoyote cfg s delta onGround) delta) delta) delta)
    delta

/-- `Player.handleMovement(keys, delta)`: inertial approach of the horizontal
velocity toward `±MOVE_SPEED` or `0`, at most 15 per frame. -/
def handleMovement (cfg : PlayerConfig) (s : PlayerState)
    (leftDown rightDown : Bool) : PlayerState :=
  let p :=
    if leftDown && !rightDown then (-cfg.MOVE_SPEED, { s with facingRight := false })
    else if rightDown && !leftDown then (cfg.MOVE_SPEED, { s with facingRight := true })
    else ((0 : ℚ), s)
  let s := p.2
  let diff := p.1 - s.vx
  let acceleration := min |diff| 15
  if 0 < diff then { s with vx := s.vx + acceleration }
  else if diff < 0 then { s with vx := s.vx - acceleration }
  else s

/-- The jump-buffering step of `Player.handleJump`: a just-pressed jump key
reloads the jump-buffer timer. -/
def bufferJump (cfg : PlayerConfig) (s : PlayerState)
    (jumpJustPressed : Bool) : PlayerState :=
  if jumpJustPressed then { s with jumpBufferTimer := cfg.JUMP_BUFFER_TIME } else s

/-- The jump-execution step of `Player.handleJump`: if both timers are
positive, set the vertical velocity to `JUMP_FORCE` and zero both timers. -/
def execJump (cfg : PlayerConfig) (s : PlayerState) : PlayerState :=
  if 0 < s.jumpBufferTimer ∧ 0 < s.coyoteTimer then
    { s with vy := cfg.JUMP_FORCE, coyoteTimer := 0, jumpBufferTimer := 0 }
  else s

/-- The variable-jump-height step of `Player.handleJump`: releasing the jump
key while moving upward multiplies the vertical velocity by the cut factor. -/
def cutJump (cfg : PlayerConfig) (s : PlayerState) (jumpDown : Bool) :
    PlayerState :=
  if !jumpDown && decide (s.vy < 0) then
    { s with vy := s.vy * cfg.JUMP_CUT_MULTIPLIER }
  else s

/-- `Player.handleJump(keys, onGround)` in full: buffer, execute, cut. -/
def handleJump (cfg : PlayerConfig) (s : PlayerState)
    (jumpJustPressed jumpDown : Bool) : PlayerState :=
  cutJump cfg (execJump cfg (bufferJump cfg s jumpJustPressed)) jumpDown

/-- `Player.handleAttack(keys)`. -/
def handleAttack (s : PlayerState) (attackJustPressed : Bool) : PlayerState :=
  if attackJustPressed && !s.isAttacking then
    let attackBoost : ℚ := if s.facingRight then 50 else -50
    { s with isAttacking := true, attackTimer := 300, vx := s.vx + attackBoost }
  else s

/-- `Player.handleSubWeapon(keys)` (the projectile-spawn event itself is
emitted outward and constructed by the scene). -/
def handleSubWeapon (cfg : PlayerConfig) (s : PlayerState)
    (subWeaponJustPressed : Bool) : PlayerState :=
  if subWeaponJustPressed && decide (s.projectileCooldown ≤ 0) then
    { s with projectileCooldown := cfg.PROJECTILE_COOLDOWN }
  else s

/-- The fall-speed clamp at the end of `Player.update`. -/
def clampFallSpeed (cfg : PlayerConfig) (s : PlayerState) : PlayerState :=
  if cfg.MAX_FALL_SPEED < s.vy then { s with vy := cfg.MAX_FALL_SPEED } else s

/-- The state right before the jump-execution test of a tick: timers updated,
movement handled, buffered press applied.  The jump of a tick fires exactly
when this state has both jump timers positive. -/
def preJumpState (cfg : PlayerConfig) (s : PlayerState) (i : PlayerInput) :
    PlayerState :=
  bufferJump cfg
    (handleMovement cfg (updateTimers cfg s i.delta i.onGround) i.leftDown i.rightDown)
    i.jumpJustPressed

/-- `Player.update(time, delta, keys)`: one tick of the controller, returning
the updated state together with whether the jump executed this tick. -/
def playerStep (cfg : PlayerConfig) (s : PlayerState) (i : PlayerInput) :
    PlayerState × Bool :=
  if s.isDead then (s, false)
  else
    let sb := preJumpState cfg s i
    let jumped := decide (0 < sb.jumpBufferTimer ∧ 0 < sb.coyoteTimer)
    let s3 := cutJump cfg (execJump cfg sb) i.jumpDown
    let s4 := handleAttack s3 i.attackJustPressed
    let s5 := handleSubWeapon cfg s4 i.subWeaponJustPressed
    (clampFallSpeed cfg s5, jumped)

/-- Iterate `playerStep` over a list of per-tick inputs. -/
def playerRun (cfg : PlayerConfig) (s : PlayerState) (is : List PlayerInput) :
    PlayerState :=
  is.foldl (fun s i => (playerStep cfg s i).1) s

/-- How many ticks of a run execute a jump. -/
def jumpCount (cfg : PlayerConfig) : PlayerState → List PlayerInput → ℕ
  | _, [] => 0
  | s, i :: is =>
      (if (playerStep cfg s i).2 then 1 else 0) +
        jumpCount cfg (playerStep cfg s i).1 is

/-- Sum of the frame deltas of a list of inputs. -/
def sumDelta (is : List PlayerInput) : ℚ :=
  (is.map (fun i => i.delta)).sum

/-- `Player.die()` (simulation-state part; the fade-out tween and the
`player-died` event are cosmetic/outward). -/
def playerDie (s : PlayerState) : PlayerState :=
  { s with isDead := true, isInvincible := true, vx := 0, vy := -200 }

/-- `Player.takeDamage(amount, knockbackDirection?)`. -/
def takeDamage (cfg : PlayerConfig) (s : PlayerState) (amount : ℚ)
    (knockbackDirection : Option ℚ) : PlayerState :=
  if s.isInvincible || s.isDead then s
  else
    let s := { s with health := s.health - amount,
                      isInvincible := true,
                      invincibilityTimer := cfg.INVINCIBILITY_TIME }
    let knockbackX := knockbackDirection.getD (if s.facingRight then -1 else 1)
    let s := { s with vx := knockbackX * cfg.KNOCKBACK_FORCE,
                      vy := -cfg.KNOCKBACK_FORCE * (1/2) }
    if s.health ≤ 0 then playerDie s else s

/-- `Player.heal(amount)`. -/
def heal (s : PlayerState) (amount : ℚ) : PlayerState :=
  { s with health := min (s.health + amount) s.maxHealth }

/-- A combat operation applied to the player: one `takeDamage` or one `heal`
call. -/
inductive PlayerOp where
  | damage (amount : ℚ) (knockbackDirection : Option ℚ)
  | heal (amount : ℚ)
  deriving Repr, DecidableEq

/-- Apply one combat operation. -/
def applyOp (cfg : PlayerConfig) (s : PlayerState) : PlayerOp → PlayerState
  | .damage amount dir => takeDamage cfg s amount dir
  | .heal amount => heal s amount

/-- Apply a sequence of combat operations. -/
def applyOps (cfg : PlayerConfig) (s : PlayerState) (ops : List PlayerOp) :
    PlayerState :=
  ops.foldl (applyOp cfg) s

/-- A combat operation's amount is nonnegative (damage and heal amounts in the
game are nonnegative). -/
def opNonneg : PlayerOp → Prop
  | .damage amount _ => 0 ≤ amount
  | .heal amount => 0 ≤ amount

/-- The player freshly constructed by `new Player(scene, x, y)`: full health,
no flags set, all timers zero. -/
def playerNew (cfg : PlayerConfig) : PlayerState :=
  { health := cfg.MAX_HEALTH, maxHealth := cfg.MAX_HEALTH,
    isAttacking := false, isInvincible := false, facingRight := true,
    isDead := false, coyoteTimer := 0, jumpBufferTimer := 0,
    invincibilityTimer := 0, attackTimer := 0, projectileCooldown := 0,
    vx := 0, vy := 0 }

/-! ## Wolf (src/entities/Wolf.ts)

The wolf AI.  The physics body's state (position, velocity, blocked flags)
and the player's position are per-tick inputs, as the source reads them; the
Euclidean distance to the player — compared against configuration thresholds —
is likewise an input (`dist`), being the square root the engine computes. -/

inductive WolfState where
  | PATROL
  | CHASE
  | ATTACK
  | HURT
  | DEAD
  deriving Repr, DecidableEq

/-- The `CONFIG.WOLF` constants used by `Wolf`. -/
structure WolfConfig where
  HEALTH : ℚ
  DAMAGE : ℚ
  MOVE_SPEED : ℚ
  CHARGE_SPEED : ℚ
  DETECTION_RANGE : ℚ
  ATTACK_RANGE : ℚ
  LEAP_FORCE_X : ℚ
  LEAP_FORCE_Y : ℚ
  PATROL_DISTANCE : ℚ
  deriving Repr, DecidableEq

/-- A wolf's mutable state: AI fields plus the body state as last written. -/
structure Wolf where
  wolfState : WolfState
  facingRight : Bool
  patrolOrigin : ℚ
  patrolDirection : ℚ
  attackCooldown : ℚ
  hurtTimer : ℚ
  health : ℚ
  x : ℚ
  y : ℚ
  vx : ℚ
  vy : ℚ
  deriving Repr, DecidableEq

/-- The per-tick inputs of `Wolf.update`: frame delta, the body state after
the engine's own integration, the blocked flags, the player position, and the
Euclidean distance to the player the engine computes from the positions. -/
structure WolfInput where
  delta : ℚ
  x : ℚ
  y : ℚ
  vx : ℚ
  vy : ℚ
  blockedDown : Bool
  blockedLeft : Bool
  blockedRight : Bool
  px : ℚ
  py : ℚ
  dist : ℚ
  deriving Repr, DecidableEq

/-- `Wolf.patrol(body)`. -/
def wolfPatrol (cfg : WolfConfig) (w : Wolf) (i : WolfInput) : Wolf :=
  let w := { w with vx := w.patrolDirection * cfg.MOVE_SPEED * (1/2),
                    facingRight := decide (0 < w.patrolDirection) }
  let w :=
    if cfg.PATROL_DISTANCE < |w.x - w.patrolOrigin| then
      { w with patrolDirection := w.patrolDirection * (-1) }
    else w
  if i.blockedLeft || i.blockedRight then
    { w with patrolDirection := w.patrolDirection * (-1) }
  else w

/-- `Wolf.chase(body, direction)`. -/
def wolfChase (cfg : WolfConfig) (w : Wolf) (direction : ℚ) : Wolf :=
  { w with vx := direction * cfg.CHARGE_SPEED,
           facingRight := decide (0 < direction) }

/-- `Wolf.attack(body, direction)`: enter ATTACK with the leap impulse. -/
def wolfAttack (cfg : WolfConfig) (w : Wolf) (direction : ℚ) : Wolf :=
  { w with wolfState := .ATTACK,
           vx := direction * cfg.LEAP_FORCE_X,
           vy := cfg.LEAP_FORCE_Y,
           facingRight := decide (0 < direction) }

/-- The body-state refresh at the top of `Wolf.update`: the wolf reads its
physics body as the engine left it. -/
def wolfTickBody (w : Wolf) (i : WolfInput) : Wolf :=
  { w with x := i.x, y := i.y, vx := i.vx, vy := i.vy }

/-- The attack-cooldown countdown of `Wolf.update`. -/
def wolfTickCooldown (w : Wolf) (delta : ℚ) : Wolf :=
  if 0 < w.attackCooldown then
    { w with attackCooldown := w.attackCooldown - delta }
  else w

/-- The hurt-freeze branch of `Wolf.update` (AI skipped while hurt). -/
def wolfHurtStep (w : Wolf) (delta : ℚ) : Wolf :=
  let t := w.hurtTimer - delta
  { w with hurtTimer := t,
           wolfState := if t ≤ 0 then .PATROL else w.wolfState }

/-- The state-machine switch of `Wolf.update`. -/
def wolfStateMachine (cfg : WolfConfig) (w : Wolf) (i : WolfInput) : Wolf :=
  let directionToPlayer : ℚ := if w.x < i.px then 1 else -1
  match w.wolfState with
  | .PATROL =>
      let w := wolfPatrol cfg w i
      if i.dist < cfg.DETECTION_RANGE then { w with wolfState := .CHASE }
      else w
  | .CHASE =>
      let w := wolfChase cfg w directionToPlayer
      let w :=
        if i.dist < cfg.ATTACK_RANGE ∧ w.attackCooldown ≤ 0 then
          wolfAttack cfg w directionToPlayer
        else w
      if cfg.DETECTION_RANGE * (3/2) < i.dist then
        { w with wolfState := .PATROL }
      else w
  | .ATTACK =>
      if i.blockedDown && decide (0 ≤ w.vy) then
        { w with wolfState := .CHASE, attackCooldown := 1000 }
      else w
  | _ => w

/-- `Wolf.update(time, delta, player)`: dead guard, body refresh, cooldown
countdown, hurt freeze, then the state machine — in source order. -/
def wolfUpdate (cfg : WolfConfig) (w0 : Wolf) (i : WolfInput) : Wolf :=
  if w0.wolfState = .DEAD then w0
  else
    let w := wolfTickCooldown (wolfTickBody w0 i) i.delta
    if 0 < w.hurtTimer then wolfHurtStep w i.delta
    else wolfStateMachine cfg w i

/-- Iterate `wolfUpdate` over a list of per-tick inputs. -/
def wolfRun (cfg : WolfConfig) (w : Wolf) (is : List WolfInput) : Wolf :=
  is.foldl (wolfUpdate cfg) w

/-! ## Bat (src/entities/Bat.ts)

The bat AI.  Distance thresholds (`WAKE_UP_RANGE`, `DETECTION_RANGE`, the
swoop arrival radius 20) are compared in the equivalent squared form; the
library sine/cosine values that only shape velocities are inputs. -/

inductive BatState where
  | SLEEPING
  | FLYING
  | SWOOPING
  | HURT
  | DEAD
  deriving Repr, DecidableEq

/-- The `CONFIG.BAT` constants used by `Bat`. -/
structure BatConfig where
  HEALTH : ℚ
  DAMAGE : ℚ
  FLY_SPEED : ℚ
  SWOOP_SPEED : ℚ
  WAKE_UP_RANGE : ℚ
  DETECTION_RANGE : ℚ
  deriving Repr, DecidableEq

/-- A bat's mutable state: AI fields plus the body state as last written. -/
structure Bat where
  batState : BatState
  homeX : ℚ
  homeY : ℚ
  swoopTarget : Option (ℚ × ℚ)
  flyTime : ℚ
  swoopCooldown : ℚ
  hurtTimer : ℚ
  health : ℚ
  x : ℚ
  y : ℚ
  vx : ℚ
  vy : ℚ
  deriving Repr, DecidableEq

/-- The per-tick inputs of `Bat.update`: frame delta, body state after the
engine's integration, the player position, and the library trigonometry the
flying branch uses (the `Math.sin`/`Math.cos` oscillation values and the
cosine/sine of the angle toward the fly target and toward the swoop target,
none of which is ever compared against a threshold). -/
structure BatInput where
  delta : ℚ
  x : ℚ
  y : ℚ
  vx : ℚ
  vy : ℚ
  px : ℚ
  py : ℚ
  flyCos : ℚ
  flySin : ℚ
  swoopCos : ℚ
  swoopSin : ℚ
  deriving Repr, DecidableEq

/-- `Bat.wakeUp()`. -/
def batWakeUp (b : Bat) : Bat :=
  { b with batState := .FLYING, vy := -50 }

/-- `Bat.startSwoop(player)`: capture the player's current position as the
swoop target and load the full 2000 ms swoop cooldown. -/
def batStartSwoop (b : Bat) (i : BatInput) : Bat :=
  { b with batState := .SWOOPING,
           swoopTarget := some (i.px, i.py),
           swoopCooldown := 2000 }

/-- `Bat.endSwoop(body)`: revert to FLYING, clear the target, apply the
upward pull-up impulse.  (It does not touch `swoopCooldown`.) -/
def batEndSwoop (cfg : BatConfig) (b : Bat) : Bat :=
  { b with batState := .FLYING,
           swoopTarget := none,
           vy := -cfg.SWOOP_SPEED * (1/2) }

/-- `Bat.fly(body, player, distance)`. -/
def batFly (cfg : BatConfig) (b : Bat) (i : BatInput) : Bat :=
  let velocityX := i.flyCos * cfg.FLY_SPEED
  let velocityY := i.flySin * cfg.FLY_SPEED
  let b := { b with vx := lerp b.vx velocityX (1/10),
                    vy := lerp b.vy velocityY (1/10) }
  if distLtB b.x b.y i.px i.py cfg.DETECTION_RANGE && decide (b.swoopCooldown ≤ 0)
  then batStartSwoop b i
  else b

/-- `Bat.swoop(body)`. -/
def batSwoop (cfg : BatConfig) (b : Bat) (i : BatInput) : Bat :=
  match b.swoopTarget with
  | none => { b with batState := .FLYING }
  | some t =>
      let b := { b with vx := i.swoopCos * cfg.SWOOP_SPEED,
                        vy := i.swoopSin * cfg.SWOOP_SPEED }
      if distLtB b.x b.y t.1 t.2 20 then batEndSwoop cfg b else b

/-- `Bat.update(time, delta, player)`. -/
def batUpdate (cfg : BatConfig) (b0 : Bat) (i : BatInput) : Bat :=
  if b0.batState = .DEAD then b0
  else
    let b := { b0 with x := i.x, y := i.y, vx := i.vx, vy := i.vy,
                       flyTime := b0.flyTime + i.delta }
    let b :=
      if 0 < b.swoopCooldown then
        { b with swoopCooldown := b.swoopCooldown - i.delta }
      else b
    if 0 < b.hurtTimer then
      let t := b.hurtTimer - i.delta
      { b with hurtTimer := t,
               batState := if t ≤ 0 then .FLYING else b.batState }
    else
      match b.batState with
      | .SLEEPING =>
          let b := { b with vx := 0, vy := 0 }
          if distLtB b.x b.y i.px i.py cfg.WAKE_UP_RANGE then batWakeUp b else b
      | .FLYING => batFly cfg b i
      | .SWOOPING => batSwoop cfg b i
      | _ => b

/-! ## Boomerang (src/entities/Bat.ts, `Boomerang` class)

The returning sub-weapon. -/

inductive BoomerangPhase where
  | OUTGOING
  | RETURNING
  deriving Repr, DecidableEq

/-- A boomerang's mutable state (`active` is the sprite's alive flag;
`destroy()` clears it). -/
structure Boomerang where
  phase : BoomerangPhase
  startX : ℚ
  maxRange : ℚ
  damage : ℚ
  speed : ℚ
  direction : ℚ
  canPierce : Bool
  active : Bool
  x : ℚ
  y : ℚ
  vx : ℚ
  vy : ℚ
  deriving Repr, DecidableEq

/-- The per-tick inputs of `Boomerang.update`: the body position after the
engine's integration, the owning player's current position, and the library
cosine/sine of the angle from the boomerang to the player used while
returning. -/
structure BoomerangInput where
  x : ℚ
  y : ℚ
  px : ℚ
  py : ℚ
  angleCos : ℚ
  angleSin : ℚ
  deriving Repr, DecidableEq

/-- `new Boomerang(scene, x, y, facingRight, player)`: phase OUTGOING, launch
point recorded, `maxRange = 32 * WORLD_SCALE * 4`, initial horizontal
velocity `speed * direction`.  `ws` is `WORLD_SCALE` from the (absent)
`src/config.ts`. -/
def boomerangNew (PROJECTILE_DAMAGE PROJECTILE_SPEED ws x y : ℚ)
    (facingRight : Bool) : Boomerang :=
  { phase := .OUTGOING, startX := x, maxRange := 32 * ws * 4,
    damage := PROJECTILE_DAMAGE, speed := PROJECTILE_SPEED,
    direction := if facingRight then 1 else -1,
    canPierce := false, active := true,
    x := x, y := y,
    vx := PROJECTILE_SPEED * (if facingRight then 1 else -1), vy := 0 }

/-- `Boomerang.startReturn()` (the spin-tween swap is cosmetic). -/
def startReturn (b : Boomerang) : Boomerang :=
  { b with phase := .RETURNING }

/-- `Boomerang.onCaught()`: destroy the sprite. -/
def onCaught (b : Boomerang) : Boomerang :=
  { b with active := false }

/-- `Boomerang.update(time, delta)`.  `ws` is `WORLD_SCALE`; the catch radius
is `20 * WORLD_SCALE`, tested against the distance to the player's current
position. -/
def boomerangUpdate (ws : ℚ) (b0 : Boomerang) (i : BoomerangInput) :
    Boomerang :=
  if !b0.active then b0
  else
    let b := { b0 with x := i.x, y := i.y }
    match b.phase with
    | .OUTGOING =>
        if b.maxRange ≤ |b.x - b.startX| then startReturn b else b
    | .RETURNING =>
        let returnSpeed := b.speed * (12/10)
        let b := { b with vx := i.angleCos * returnSpeed,
                          vy := i.angleSin * returnSpeed }
        if distLtB b.x b.y i.px i.py (20 * ws) then onCaught b else b

/-- `Boomerang.onHitWall()`. -/
def onHitWall (b : Boomerang) : Boomerang :=
  if b.phase = .OUTGOING then startReturn b else b

/-- `Boomerang.onHitEnemy()` (the flash is cosmetic). -/
def onHitEnemy (b : Boomerang) : Boomerang :=
  if b.canPierce then b
  else if b.phase = .OUTGOING then startReturn b else b

/-- Iterate `boomerangUpdate` over a list of per-tick inputs. -/
def boomerangRun (ws : ℚ) (b : Boomerang) (is : List BoomerangInput) :
    Boomerang :=
  is.foldl (boomerangUpdate ws) b

/-! ## Sample data

Concrete configurations and states used to instantiate the theorems.  The
player values follow the tuning documented in the repository's README and
progress log (MOVE_SPEED 280, JUMP_FORCE -750, COYOTE_TIME 100 ms); the
remaining constants are plausible values satisfying the theorems'
hypotheses. -/

def cfg0 : PlayerConfig :=
  { MAX_HEALTH := 100, ATTACK_DAMAGE := 15, MOVE_SPEED := 280,
    JUMP_FORCE := -750, JUMP_CUT_MULTIPLIER := 4/10, MAX_FALL_SPEED := 900,
    COYOTE_TIME := 100, JUMP_BUFFER_TIME := 120, INVINCIBILITY_TIME := 1000,
    KNOCKBACK_FORCE := 200, PROJECTILE_COOLDOWN := 500 }

def wolfCfg0 : WolfConfig :=
  { HEALTH := 3, DAMAGE := 20, MOVE_SPEED := 100, CHARGE_SPEED := 180,
    DETECTION_RANGE := 180, ATTACK_RANGE := 80, LEAP_FORCE_X := 250,
    LEAP_FORCE_Y := -150, PATROL_DISTANCE := 60 }

def batCfg0 : BatConfig :=
  { HEALTH := 2, DAMAGE := 10, FLY_SPEED := 80, SWOOP_SPEED := 300,
    WAKE_UP_RANGE := 150, DETECTION_RANGE := 120 }

/-- A grounded, alive player about to jump. -/
def sampleGrounded : PlayerState :=
  { playerNew cfg0 with coyoteTimer := 100 }

/-- A tick in which the player presses and holds jump while grounded. -/
def sampleJumpInput : PlayerInput :=
  { delta := 16, onGround := true, leftDown := false, rightDown := false,
    jumpJustPressed := true, jumpDown := true, attackJustPressed := false,
    subWeaponJustPressed := false }

/-- An airborne tick with no input held. -/
def sampleAirInput : PlayerInput :=
  { delta := 16, onGround := false, leftDown := false, rightDown := false,
    jumpJustPressed := false, jumpDown := false, attackJustPressed := false,
    subWeaponJustPressed := false }

/-- An airborne tick lasting 150 ms (longer than the 100 ms coyote window). -/
def sampleLongAirInput : PlayerInput :=
  { sampleAirInput with delta := 150 }

/-- An airborne tick in which the player presses jump. -/
def sampleAirJumpPress : PlayerInput :=
  { sampleAirInput with jumpJustPressed := true, jumpDown := true }

/-- An invincible player (mid-invincibility window). -/
def sampleInvincible : PlayerState :=
  { playerNew cfg0 with health := 75, isInvincible := true,
                        invincibilityTimer := 600 }

/-- A patrolling wolf. -/
def sampleWolf : Wolf :=
  { wolfState := .PATROL, facingRight := true, patrolOrigin := 0,
    patrolDirection := 1, attackCooldown := 0, hurtTimer := 0, health := 3,
    x := 0, y := 0, vx := 0, vy := 0 }

/-- A wolf tick at a given distance from the player. -/
def wolfInputAt (d : ℚ) : WolfInput :=
  { delta := 16, x := 0, y := 0, vx := 0, vy := 0, blockedDown := true,
    blockedLeft := false, blockedRight := false, px := d, py := 0, dist := d }

/-- A swooping bat that has just about arrived at its captured target. -/
def sampleSwoopingBat : Bat :=
  { batState := .SWOOPING, homeX := 0, homeY := 0, swoopTarget := some (0, 0),
    flyTime := 0, swoopCooldown := 2000, hurtTimer := 0, health := 2,
    x := 10, y := 0, vx := 0, vy := 0 }

/-- The tick on which `sampleSwoopingBat` arrives (distance 10 < 20). -/
def sampleSwoopArrivalInput : BatInput :=
  { delta := 500, x := 10, y := 0, vx := 0, vy := 0, px := 50, py := 50,
    flyCos := 0, flySin := 0, swoopCos := -1, swoopSin := 0 }

/-- A one-shot camera zone over the square `[0,100] × [0,100]`. -/
def sampleOneShotZone : CameraZone :=
  { bounds := { x := 0, y := 0, w := 100, h := 100 }, zoom := 6/5,
    name := "vista", priority := 0, oneShot := true, hasTriggered := false }

/-- Two overlapping zones of equal priority; `zoneFirst` is added first. -/
def zoneFirst : CameraZone :=
  { bounds := { x := 0, y := 0, w := 100, h := 100 }, zoom := 8/10,
    name := "first", priority := 5, oneShot := false, hasTriggered := false }

def zoneSecond : CameraZone :=
  { bounds := { x := 0, y := 0, w := 100, h := 100 }, zoom := 14/10,
    name := "second", priority := 5, oneShot := false, hasTriggered := false }

/-- A higher-priority zone containing only points with `x ≥ 50`. -/
def zoneHigh : CameraZone :=
  { bounds := { x := 50, y := 0, w := 100, h := 100 }, zoom := 1,
    name := "high", priority := 9, oneShot := false, hasTriggered := false }

/-- A boomerang thrown rightward from the origin with `WORLD_SCALE = 2`:
its maximum range is `32 * 2 * 4 = 256` and its catch radius `40`. -/
def sampleBoomerang : Boomerang :=
  boomerangNew 10 400 2 0 0 true

/-- A boomerang tick at position `(bx, by)` with the player at `(px, py)`. -/
def boomInputAt (bx bby px py : ℚ) : BoomerangInput :=
  { x := bx, y := bby, px := px, py := py, angleCos := -1, angleSin := 0 }

/-! # Theorems -/

/-- C10: `GameState.spendCoins(n)` returns true and decreases `coins` by
exactly `n` (leaving `totalCoinsCollected` and every other field unchanged)
when the balance covers it, and returns false leaving the whole state
unchanged otherwise — never a partial deduction. -/
theorem spendCoins_atomic (g : Economy) (n : ℚ) :
    (n ≤ g.coins → spendCoins g n = (true, { g with coins := g.coins - n })) ∧
    (g.coins < n → spendCoins g n = (false, g)) := by
  constructor
  · intro h
    simp [spendCoins, h]
  · intro h
    simp [spendCoins, not_le.mpr h]

/-- Witness for C10: a covered spend succeeds and deducts exactly; an
uncovered spend fails and changes nothing (not even `totalCoinsCollected`). -/
theorem spendCoins_atomic_witness :
    spendCoins ⟨10, 12, 0, 0⟩ 4 = (true, ⟨6, 12, 0, 0⟩) ∧
    spendCoins ⟨3, 12, 0, 0⟩ 4 = (false, ⟨3, 12, 0, 0⟩) := by
  constructor
  · have h := (spendCoins_atomic ⟨10, 12, 0, 0⟩ 4).1 (by norm_num)
    norm_num at h
    exact h
  · exact (spendCoins_atomic ⟨3, 12, 0, 0⟩ 4).2 (by norm_num)

/-- C8: a `shake` call sets the intensity to the max of the current and the
requested intensities and replaces the duration and the remaining time with
the new duration; in particular `shake(0.3, 100)` followed immediately by
`shake(0.7, 50)` from a quiet camera yields intensity `0.7` and remaining
time `50` ms. -/
theorem shake_max_and_replace :
    (∀ (s : ShakeState) (intensity d : ℚ),
        shake s intensity (some d) =
          { shakeIntensity := max s.shakeIntensity intensity,
            shakeDuration := d, shakeTimer := d }) ∧
    shake (shake ⟨0, 0, 0⟩ (3/10) (some 100)) (7/10) (some 50) =
      ⟨7/10, 50, 50⟩ := by
  refine ⟨fun s intensity d => rfl, ?_⟩
  simp [shake]
  norm_num

/-- After any `takeDamage` call the player is invincible or dead, so a
repeat call hits the guard. -/
lemma takeDamage_locked (cfg : PlayerConfig) (s : PlayerState) (a : ℚ)
    (d : Option ℚ) :
    (takeDamage cfg s a d).isInvincible = true ∨
      (takeDamage cfg s a d).isDead = true := by
  by_cases hg : (s.isInvincible || s.isDead) = true
  · have heq : takeDamage cfg s a d = s := by
      simp only [takeDamage]
      rw [if_pos hg]
    rw [heq]
    simpa using hg
  · left
    simp only [takeDamage]
    rw [if_neg hg]
    split_ifs <;> rfl

/-- C2: `takeDamage` on an invincible or dead player leaves the whole state
unchanged, and a second `takeDamage` right after any first one is always a
no-op (the first call leaves the player invincible or dead), so repeated
calls during the invincibility window are observably idempotent. -/
theorem takeDamage_invincible_noop (cfg : PlayerConfig) :
    (∀ (s : PlayerState) (amount : ℚ) (dir : Option ℚ),
        s.isInvincible = true ∨ s.isDead = true →
        takeDamage cfg s amount dir = s) ∧
    (∀ (s : PlayerState) (a1 a2 : ℚ) (d1 d2 : Option ℚ),
        takeDamage cfg (takeDamage cfg s a1 d1) a2 d2 =
          takeDamage cfg s a1 d1) := by
  have guard : ∀ (s : PlayerState) (amount : ℚ) (dir : Option ℚ),
      s.isInvincible = true ∨ s.isDead = true →
      takeDamage cfg s amount dir = s := by
    intro s amount dir h
    rcases h with h | h <;> simp [takeDamage, h]
  exact ⟨guard, fun s a1 a2 d1 d2 =>
    guard _ a2 d2 (takeDamage_locked cfg s a1 d1)⟩

/-- Witness for C2: damaging an invincible player changes nothing, and a
second hit immediately after a first accepted hit is a no-op. -/
theorem takeDamage_invincible_noop_witness :
    takeDamage cfg0 sampleInvincible 25 none = sampleInvincible ∧
    takeDamage cfg0 (takeDamage cfg0 (playerNew cfg0) 25 none) 25 none =
      takeDamage cfg0 (playerNew cfg0) 25 none :=
  ⟨(takeDamage_invincible_noop cfg0).1 sampleInvincible 25 none (Or.inl rfl),
   (takeDamage_invincible_noop cfg0).2 (playerNew cfg0) 25 25 none none⟩

/-- Counterexample to C3: a single 150-damage hit on a full-health player
(`maxHealth = 100`) drives health to `-50 < 0` — `takeDamage` subtracts the
full amount without clamping at zero. -/
theorem health_below_zero_cex :
    (applyOps cfg0 (playerNew cfg0) [PlayerOp.damage 150 none]).health = -50 ∧
    (applyOps cfg0 (playerNew cfg0) [PlayerOp.damage 150 none]).health < 0 := by
  have h : (applyOps cfg0 (playerNew cfg0)
      [PlayerOp.damage 150 none]).health = -50 := by
    simp [applyOps, applyOp, takeDamage, playerNew, cfg0, playerDie]
    norm_num
  exact ⟨h, by rw [h]; norm_num⟩

/-- One combat operation with nonnegative amount preserves the (amended)
health invariant. -/
lemma applyOp_health_inv (cfg : PlayerConfig) (s : PlayerState)
    (op : PlayerOp) (hop : opNonneg op)
    (h1 : s.health ≤ s.maxHealth) (h2 : 0 ≤ s.maxHealth)
    (h3 : s.health < 0 → s.isDead = true) :
    (applyOp cfg s op).health ≤ (applyOp cfg s op).maxHealth ∧
    0 ≤ (applyOp cfg s op).maxHealth ∧
    ((applyOp cfg s op).health < 0 → (applyOp cfg s op).isDead = true) ∧
    (applyOp cfg s op).maxHealth = s.maxHealth := by
  cases op with
  | damage a d =>
      simp only [opNonneg] at hop
      by_cases hg : (s.isInvincible || s.isDead) = true
      · have heq : applyOp cfg s (.damage a d) = s := by
          simp only [applyOp, takeDamage]
          rw [if_pos hg]
        rw [heq]
        exact ⟨h1, h2, h3, rfl⟩
      · simp only [applyOp, takeDamage]
        rw [if_neg hg]
        split_ifs
        all_goals refine ⟨?_, ?_, ?_, ?_⟩
        all_goals first
          | exact h2
          | rfl
          | (show s.health - a ≤ s.maxHealth
             linarith)
          | (intro hlt
             first
               | rfl
               | exact absurd (le_of_lt (show s.health - a < 0 from hlt))
                   (by assumption))
  | heal a =>
      simp only [opNonneg] at hop
      refine ⟨?_, ?_, ?_, ?_⟩
      · show min (s.health + a) s.maxHealth ≤ s.maxHealth
        exact min_le_right _ _
      · exact h2
      · intro hlt
        have hm : min (s.health + a) s.maxHealth < 0 := hlt
        show s.isDead = true
        rcases min_lt_iff.mp hm with h | h
        · exact h3 (by linarith)
        · exact absurd h (not_lt.mpr h2)
      · rfl

/-- The health invariant holds along any nonnegative combat sequence. -/
lemma applyOps_health_inv (cfg : PlayerConfig) (ops : List PlayerOp) :
    ∀ s : PlayerState, (∀ op ∈ ops, opNonneg op) →
    s.health ≤ s.maxHealth → 0 ≤ s.maxHealth →
    (s.health < 0 → s.isDead = true) →
    (applyOps cfg s ops).health ≤ (applyOps cfg s ops).maxHealth ∧
    0 ≤ (applyOps cfg s ops).maxHealth ∧
    ((applyOps cfg s ops).health < 0 →
      (applyOps cfg s ops).isDead = true) := by
  induction ops with
  | nil => intro s _ h1 h2 h3; exact ⟨h1, h2, h3⟩
  | cons op ops ih =>
      intro s hops h1 h2 h3
      have hop := hops op (by simp)
      have step := applyOp_health_inv cfg s op hop h1 h2 h3
      have rest := ih (applyOp cfg s op)
        (fun o ho => hops o (by simp [ho])) step.1 step.2.1 step.2.2.1
      simpa [applyOps] using rest

/-- Amended C3: starting from a freshly constructed player (full health) and
applying any sequence of `takeDamage`/`heal` calls with nonnegative amounts,
health never exceeds `maxHealth`, but it can drop below 0 exactly once — on
the killing blow — and whenever it is negative the player is dead (and
`takeDamage` is thereafter a no-op). -/
theorem health_bounds_amended (cfg : PlayerConfig)
    (hmax : 0 ≤ cfg.MAX_HEALTH) (ops : List PlayerOp)
    (hops : ∀ op ∈ ops, opNonneg op) :
    (applyOps cfg (playerNew cfg) ops).health ≤
      (applyOps cfg (playerNew cfg) ops).maxHealth ∧
    ((applyOps cfg (playerNew cfg) ops).health < 0 →
      (applyOps cfg (playerNew cfg) ops).isDead = true) := by
  have h := applyOps_health_inv cfg ops (playerNew cfg) hops
    (le_refl _) hmax
    (fun hlt => absurd hlt (not_lt.mpr
      (show (0:ℚ) ≤ (playerNew cfg).health from hmax)))
  exact ⟨h.1, h.2.2⟩

/-- Witness for the amended C3: a damage-heal-overkill sequence keeps health
at most `maxHealth`, and negative health implies death. -/
theorem health_bounds_amended_witness :
    (applyOps cfg0 (playerNew cfg0)
        [PlayerOp.damage 30 none, PlayerOp.heal 50]).health ≤
      (applyOps cfg0 (playerNew cfg0)
        [PlayerOp.damage 30 none, PlayerOp.heal 50]).maxHealth ∧
    ((applyOps cfg0 (playerNew cfg0)
        [PlayerOp.damage 30 none, PlayerOp.heal 50]).health < 0 →
      (applyOps cfg0 (playerNew cfg0)
        [PlayerOp.damage 30 none, PlayerOp.heal 50]).isDead = true) :=
  health_bounds_amended cfg0 (by norm_num [cfg0])
    [PlayerOp.damage 30 none, PlayerOp.heal 50]
    (by intro op h; fin_cases h <;> norm_num [opNonneg])

/-- Counterexample to C9: a bat arriving at its swoop target (distance
`10 < 20`) does revert to FLYING with the pull-up impulse, but its swoop
cooldown is `1500`, not the full `2000`: the cooldown was loaded at swoop
start and merely kept counting down — `endSwoop` does not reset it. -/
theorem swoop_cooldown_not_reset_cex :
    (batUpdate batCfg0 sampleSwoopingBat sampleSwoopArrivalInput).batState =
      .FLYING ∧
    (batUpdate batCfg0 sampleSwoopingBat sampleSwoopArrivalInput).vy = -150 ∧
    (batUpdate batCfg0 sampleSwoopingBat sampleSwoopArrivalInput).swoopCooldown
      = 1500 ∧
    ¬((batUpdate batCfg0 sampleSwoopingBat
        sampleSwoopArrivalInput).swoopCooldown = 2000) := by
  have h : batUpdate batCfg0 sampleSwoopingBat sampleSwoopArrivalInput =
      { sampleSwoopingBat with
          batState := .FLYING
          swoopTarget := none
          flyTime := 500
          swoopCooldown := 1500
          vx := -300
          vy := -150 } := by
    simp [batUpdate, sampleSwoopingBat, sampleSwoopArrivalInput, batSwoop,
      batEndSwoop, batCfg0, distLtB]
    norm_num
  rw [h]
  refine ⟨rfl, rfl, rfl, by norm_num⟩

/-- Amended C9: on the first update tick at which the swooping bat's distance
to the captured target falls below the arrival radius 20, it reverts to
FLYING, clears the target, and receives the upward pull-up impulse
`-SWOOP_SPEED/2`; but the swoop cooldown is not reset at arrival — it was
loaded with its full 2000 ms value when the swoop started (`startSwoop`) and
at arrival it simply continues its ordinary countdown. -/
theorem swoop_arrival_amended (cfg : BatConfig) (b : Bat) (i : BatInput)
    (t : ℚ × ℚ) (hstate : b.batState = .SWOOPING) (hhurt : b.hurtTimer ≤ 0)
    (htgt : b.swoopTarget = some t)
    (harr : distLtB i.x i.y t.1 t.2 20 = true) :
    (batUpdate cfg b i).batState = .FLYING ∧
    (batUpdate cfg b i).swoopTarget = none ∧
    (batUpdate cfg b i).vy = -cfg.SWOOP_SPEED * (1/2) ∧
    (batUpdate cfg b i).swoopCooldown =
      (if 0 < b.swoopCooldown then b.swoopCooldown - i.delta
       else b.swoopCooldown) ∧
    (∀ (b2 : Bat) (i2 : BatInput), (batStartSwoop b2 i2).swoopCooldown = 2000)
    := by
  have hh : ¬(0 < b.hurtTimer) := not_lt.mpr hhurt
  have hnd : ¬(b.batState = BatState.DEAD) := by
    rw [hstate]
    intro hcon
    exact BatState.noConfusion hcon
  have heq : batUpdate cfg b i = batEndSwoop cfg
      { b with x := i.x
               y := i.y
               flyTime := b.flyTime + i.delta
               swoopCooldown :=
                 if 0 < b.swoopCooldown then b.swoopCooldown - i.delta
                 else b.swoopCooldown
               vx := i.swoopCos * cfg.SWOOP_SPEED
               vy := i.swoopSin * cfg.SWOOP_SPEED } := by
    simp [batUpdate, batSwoop, hstate, htgt, hh, hnd, harr]
    split_ifs <;> simp [batSwoop, htgt, harr]
  rw [heq]
  exact ⟨rfl, rfl, rfl, rfl, fun b2 i2 => rfl⟩

/-- Witness for the amended C9: the sample arrival tick, with the theorem's
hypotheses discharged concretely. -/
theorem swoop_arrival_amended_witness :
    (batUpdate batCfg0 sampleSwoopingBat sampleSwoopArrivalInput).batState =
      .FLYING ∧
    (batUpdate batCfg0 sampleSwoopingBat
      sampleSwoopArrivalInput).swoopTarget = none ∧
    (batUpdate batCfg0 sampleSwoopingBat sampleSwoopArrivalInput).vy =
      -batCfg0.SWOOP_SPEED * (1/2) ∧
    (batUpdate batCfg0 sampleSwoopingBat
        sampleSwoopArrivalInput).swoopCooldown =
      (if 0 < sampleSwoopingBat.swoopCooldown then
        sampleSwoopingBat.swoopCooldown - sampleSwoopArrivalInput.delta
       else sampleSwoopingBat.swoopCooldown) ∧
    (∀ (b2 : Bat) (i2 : BatInput), (batStartSwoop b2 i2).swoopCooldown = 2000)
    :=
  swoop_arrival_amended batCfg0 sampleSwoopingBat sampleSwoopArrivalInput
    (0, 0) rfl (le_refl 0) rfl (by norm_num [distLtB, sampleSwoopArrivalInput])

/-- C5: a thrown boomerang starts OUTGOING with `maxRange = 4 × (32 ×
WORLD_SCALE)`; while OUTGOING and unobstructed, an update tick flips it to
RETURNING exactly when the distance traveled from the launch point reaches
`maxRange` (and it stays OUTGOING over any run of ticks short of that); while
RETURNING, an update tick destroys (catches) it exactly when its distance to
the owning player's current position — the per-tick input, not the launch
point — is below the catch radius `20 × WORLD_SCALE`. -/
theorem boomerang_lifecycle (ws : ℚ) :
    (∀ (dmg sp x y : ℚ) (f : Bool),
        (boomerangNew dmg sp ws x y f).phase = .OUTGOING ∧
        (boomerangNew dmg sp ws x y f).startX = x ∧
        (boomerangNew dmg sp ws x y f).maxRange = 4 * (32 * ws) ∧
        (boomerangNew dmg sp ws x y f).active = true) ∧
    (∀ (b : Boomerang) (i : BoomerangInput),
        b.active = true → b.phase = .OUTGOING →
        ((boomerangUpdate ws b i).phase = .RETURNING ↔
          b.maxRange ≤ |i.x - b.startX|) ∧
        ((boomerangUpdate ws b i).phase = .OUTGOING ↔
          |i.x - b.startX| < b.maxRange) ∧
        (boomerangUpdate ws b i).active = true) ∧
    (∀ (b : Boomerang) (i : BoomerangInput),
        b.active = true → b.phase = .RETURNING →
        ((boomerangUpdate ws b i).active = false ↔
          distLtB i.x i.y i.px i.py (20 * ws) = true)) ∧
    (∀ (b : Boomerang) (is : List BoomerangInput),
        b.active = true → b.phase = .OUTGOING →
        (∀ i ∈ is, |i.x - b.startX| < b.maxRange) →
        (boomerangRun ws b is).phase = .OUTGOING ∧
        (boomerangRun ws b is).active = true ∧
        (boomerangRun ws b is).startX = b.startX ∧
        (boomerangRun ws b is).maxRange = b.maxRange) := by
  have hout : ∀ (b : Boomerang) (i : BoomerangInput),
      b.active = true → b.phase = .OUTGOING →
      boomerangUpdate ws b i =
        (if b.maxRange ≤ |i.x - b.startX| then
          startReturn { b with x := i.x, y := i.y }
         else { b with x := i.x, y := i.y }) := by
    intro b i hact hph
    simp [boomerangUpdate, hact, hph]
  have hret : ∀ (b : Boomerang) (i : BoomerangInput),
      b.active = true → b.phase = .RETURNING →
      boomerangUpdate ws b i =
        (if distLtB i.x i.y i.px i.py (20 * ws) = true then
          onCaught
            { b with x := i.x
                     y := i.y
                     vx := i.angleCos * (b.speed * (12/10))
                     vy := i.angleSin * (b.speed * (12/10)) }
         else
            { b with x := i.x
                     y := i.y
                     vx := i.angleCos * (b.speed * (12/10))
                     vy := i.angleSin * (b.speed * (12/10)) }) := by
    intro b i hact hph
    simp [boomerangUpdate, hact, hph]
  refine ⟨?_, ?_, ?_, ?_⟩
  · intro dmg sp x y f
    refine ⟨rfl, rfl, ?_, rfl⟩
    show 32 * ws * 4 = 4 * (32 * ws)
    ring
  · intro b i hact hph
    rw [hout b i hact hph]
    split_ifs with hr
    · simp [startReturn, hr, not_lt.mpr hr, hact]
    · simp [hph, not_le.mp hr, hact]
  · intro b i hact hph
    rw [hret b i hact hph]
    split_ifs with hc
    · simp [onCaught, hc]
    · simp [hact, hc]
  · intro b is hact hph hshort
    induction is generalizing b with
    | nil => exact ⟨hph, hact, rfl, rfl⟩
    | cons i is ih =>
        have hi := hshort i (by simp)
        have hstep : boomerangUpdate ws b i = { b with x := i.x, y := i.y } := by
          rw [hout b i hact hph]
          rw [if_neg (not_le.mpr hi)]
        have hrun : boomerangRun ws b (i :: is) =
            boomerangRun ws { b with x := i.x, y := i.y } is := by
          simp [boomerangRun, hstep]
        rw [hrun]
        exact ih { b with x := i.x, y := i.y } hact hph
          (fun j hj => hshort j (by simp [hj]))

/-- Witness for C5: with `WORLD_SCALE = 2` (maxRange 256, catch radius 40),
the sample boomerang stays OUTGOING at 255 traveled, flips to RETURNING at
256, and while RETURNING is caught near the player's current position even
though that position is far from the launch point. -/
theorem boomerang_lifecycle_witness :
    (boomerangUpdate 2 sampleBoomerang (boomInputAt 255 0 900 0)).phase =
      .OUTGOING ∧
    (boomerangUpdate 2 sampleBoomerang (boomInputAt 256 0 900 0)).phase =
      .RETURNING ∧
    ((boomerangUpdate 2 (startReturn sampleBoomerang)
        (boomInputAt 880 0 900 0)).active = false) ∧
    (boomerangRun 2 sampleBoomerang
      [boomInputAt 100 0 900 0, boomInputAt 200 0 900 0]).phase =
      .OUTGOING := by
  have h := boomerang_lifecycle 2
  refine ⟨?_, ?_, ?_, ?_⟩
  · exact (h.2.1 sampleBoomerang (boomInputAt 255 0 900 0) rfl rfl).2.1.mpr
      (by norm_num [sampleBoomerang, boomerangNew, boomInputAt])
  · exact (h.2.1 sampleBoomerang (boomInputAt 256 0 900 0) rfl rfl).1.mpr
      (by norm_num [sampleBoomerang, boomerangNew, boomInputAt])
  · exact (h.2.2.1 (startReturn sampleBoomerang)
      (boomInputAt 880 0 900 0) rfl rfl).mpr
      (by norm_num [distLtB, boomInputAt])
  · exact (h.2.2.2 sampleBoomerang
      [boomInputAt 100 0 900 0, boomInputAt 200 0 900 0] rfl rfl
      (by intro j hj; fin_cases hj <;>
        norm_num [sampleBoomerang, boomerangNew, boomInputAt])).1

/-- `contains` never changes the one-shot flag. -/
lemma zoneContains_oneShot (z : CameraZone) (p q : ℚ) :
    (zoneContains z p q).2.oneShot = z.oneShot := by
  simp only [zoneContains]
  split_ifs <;> rfl

/-- A fired one-shot zone's `contains` is false and changes nothing. -/
lemma zoneContains_dead (z : CameraZone) (p q : ℚ) (h1 : z.oneShot = true)
    (h2 : z.hasTriggered = true) : zoneContains z p q = (false, z) := by
  simp [zoneContains, h1, h2]

/-- A one-shot zone's first true `contains` latches `hasTriggered`. -/
lemma zoneContains_fires (z : CameraZone) (p q : ℚ) (h1 : z.oneShot = true)
    (hr : (zoneContains z p q).1 = true) :
    (zoneContains z p q).2.hasTriggered = true := by
  by_cases hg : (z.oneShot && z.hasTriggered) = true
  · rw [zoneContains, if_pos hg] at hr
    simp at hr
  · rw [zoneContains, if_neg hg] at hr ⊢
    have hr2 : rectContains z.bounds p q = true := hr
    simp [hr2, h1]

/-- A fired one-shot zone returns false on every later `contains` call. -/
lemma zoneRun_dead (pts : List (ℚ × ℚ)) :
    ∀ z : CameraZone, z.oneShot = true → z.hasTriggered = true →
    (zoneRunContains z pts).1.count true = 0 := by
  induction pts with
  | nil => intro z _ _; rfl
  | cons p ps ih =>
      intro z h1 h2
      simp only [zoneRunContains, zoneContains_dead z p.1 p.2 h1 h2]
      simpa using ih z h1 h2

/-- Run-level bound: a one-shot zone answers true at most once per run. -/
lemma zoneRun_count (pts : List (ℚ × ℚ)) :
    ∀ z : CameraZone, z.oneShot = true →
    (zoneRunContains z pts).1.count true ≤ 1 := by
  induction pts with
  | nil => intro z _; simp [zoneRunContains]
  | cons p ps ih =>
      intro z h1
      simp only [zoneRunContains]
      by_cases hr : (zoneContains z p.1 p.2).1 = true
      · have hdead := zoneRun_dead ps (zoneContains z p.1 p.2).2
          (by rw [zoneContains_oneShot]; exact h1)
          (zoneContains_fires z p.1 p.2 h1 hr)
        simp [hr, List.count_cons, hdead]
      · have hfalse : (zoneContains z p.1 p.2).1 = false :=
          Bool.eq_false_iff.mpr hr
        have := ih (zoneContains z p.1 p.2).2
          (by rw [zoneContains_oneShot]; exact h1)
        simpa [hfalse, List.count_cons] using this

/-- A run of `contains` calls never changes the one-shot flag. -/
lemma zoneRun_oneShot (pts : List (ℚ × ℚ)) :
    ∀ z : CameraZone, (zoneRunContains z pts).2.oneShot = z.oneShot := by
  induction pts with
  | nil => intro z; rfl
  | cons p ps ih =>
      intro z
      simp only [zoneRunContains]
      rw [ih, zoneContains_oneShot]

/-- C7: a one-shot `CameraZone`'s `contains` returns true at most once per
`reset` cycle: over any sequence of calls it answers true at most once, and
after a `reset` a further sequence again answers true at most once. -/
theorem oneshot_contains_at_most_once (z : CameraZone)
    (h : z.oneShot = true) (pts1 pts2 : List (ℚ × ℚ)) :
    (zoneRunContains z pts1).1.count true ≤ 1 ∧
    (zoneRunContains (zoneReset (zoneRunContains z pts1).2)
      pts2).1.count true ≤ 1 :=
  ⟨zoneRun_count pts1 z h,
   zoneRun_count pts2 _ (by simp [zoneReset, zoneRun_oneShot, h])⟩

/-- Witness for C7: the sample one-shot zone over two concrete traversals
separated by a reset. -/
theorem oneshot_contains_at_most_once_witness :
    (zoneRunContains sampleOneShotZone [(10, 10), (20, 20)]).1.count true ≤ 1 ∧
    (zoneRunContains (zoneReset
      (zoneRunContains sampleOneShotZone [(10, 10), (20, 20)]).2)
      [(30, 30)]).1.count true ≤ 1 :=
  oneshot_contains_at_most_once sampleOneShotZone rfl
    [(10, 10), (20, 20)] [(30, 30)]

/-- `patrol` never changes the state field. -/
lemma wolfPatrol_state (cfg : WolfConfig) (w : Wolf) (i : WolfInput) :
    (wolfPatrol cfg w i).wolfState = w.wolfState := by
  simp only [wolfPatrol]
  split_ifs <;> rfl

/-- `wolfTickCooldown` only touches `attackCooldown`. -/
lemma wolfTickCooldown_state (w : Wolf) (d : ℚ) :
    (wolfTickCooldown w d).wolfState = w.wolfState := by
  unfold wolfTickCooldown
  split_ifs <;> rfl

/-- `wolfTickCooldown` leaves `hurtTimer` alone. -/
lemma wolfTickCooldown_hurt (w : Wolf) (d : ℚ) :
    (wolfTickCooldown w d).hurtTimer = w.hurtTimer := by
  unfold wolfTickCooldown
  split_ifs <;> rfl

/-- The chewed attack cooldown of a tick. -/
lemma wolfTickCooldown_cd (w : Wolf) (d : ℚ) :
    (wolfTickCooldown w d).attackCooldown =
      (if 0 < w.attackCooldown then w.attackCooldown - d
       else w.attackCooldown) := by
  unfold wolfTickCooldown
  split_ifs <;> rfl

/-- With no hurt freeze and not dead, `Wolf.update` runs the state machine on
the body-refreshed, cooldown-chewed wolf. -/
lemma wolfUpdate_not_hurt (cfg : WolfConfig) (w : Wolf) (i : WolfInput)
    (hh : w.hurtTimer ≤ 0) (hnd : ¬(w.wolfState = WolfState.DEAD)) :
    wolfUpdate cfg w i =
      wolfStateMachine cfg (wolfTickCooldown (wolfTickBody w i) i.delta) i
    := by
  unfold wolfUpdate
  rw [if_neg hnd]
  have hcond : ¬(0 < (wolfTickCooldown (wolfTickBody w i) i.delta).hurtTimer)
    := by
    rw [wolfTickCooldown_hurt]
    exact not_lt.mpr hh
  exact if_neg hcond

/-- The PATROL case of the state machine: CHASE exactly below
`DETECTION_RANGE`. -/
lemma wolfStateMachine_patrol (cfg : WolfConfig) (w : Wolf) (i : WolfInput)
    (hst : w.wolfState = .PATROL) :
    (wolfStateMachine cfg w i).wolfState =
      (if i.dist < cfg.DETECTION_RANGE then WolfState.CHASE
       else WolfState.PATROL) := by
  simp only [wolfStateMachine, hst, wolfPatrol]
  split_ifs <;> simp_all

/-- The CHASE case of the state machine: PATROL exactly above
`1.5 × DETECTION_RANGE`, otherwise ATTACK (when in attack range off
cooldown) or CHASE. -/
lemma wolfStateMachine_chase (cfg : WolfConfig) (w : Wolf) (i : WolfInput)
    (hst : w.wolfState = .CHASE) :
    (wolfStateMachine cfg w i).wolfState =
      (if cfg.DETECTION_RANGE * (3/2) < i.dist then WolfState.PATROL
       else if i.dist < cfg.ATTACK_RANGE ∧ w.attackCooldown ≤ 0 then
         WolfState.ATTACK
       else WolfState.CHASE) := by
  simp only [wolfStateMachine, hst, wolfChase]
  split_ifs <;> simp_all [wolfAttack]

/-- The state machine never touches `hurtTimer`. -/
lemma wolfStateMachine_hurt (cfg : WolfConfig) (w : Wolf) (i : WolfInput) :
    (wolfStateMachine cfg w i).hurtTimer = w.hurtTimer := by
  unfold wolfStateMachine
  cases hw : w.wolfState <;>
    simp [wolfPatrol, wolfChase, wolfAttack] <;> split_ifs <;> rfl

/-- An update tick never makes `hurtTimer` positive again. -/
lemma wolfUpdate_hurt_nonpos (cfg : WolfConfig) (w : Wolf) (i : WolfInput)
    (hh : w.hurtTimer ≤ 0) : (wolfUpdate cfg w i).hurtTimer ≤ 0 := by
  by_cases hd : w.wolfState = WolfState.DEAD
  · simpa [wolfUpdate, hd] using hh
  · rw [wolfUpdate_not_hurt cfg w i hh hd, wolfStateMachine_hurt,
      wolfTickCooldown_hurt]
    exact hh

/-- The whole-tick PATROL transition. -/
lemma wolfUpdate_patrol (cfg : WolfConfig) (w : Wolf) (i : WolfInput)
    (hh : w.hurtTimer ≤ 0) (hst : w.wolfState = .PATROL) :
    (wolfUpdate cfg w i).wolfState =
      (if i.dist < cfg.DETECTION_RANGE then WolfState.CHASE
       else WolfState.PATROL) := by
  have hnd : ¬(w.wolfState = WolfState.DEAD) := by
    rw [hst]
    exact fun hc => WolfState.noConfusion hc
  rw [wolfUpdate_not_hurt cfg w i hh hnd]
  exact wolfStateMachine_patrol cfg _ i
    (by rw [wolfTickCooldown_state]; exact hst)

/-- The whole-tick CHASE transition. -/
lemma wolfUpdate_chase (cfg : WolfConfig) (w : Wolf) (i : WolfInput)
    (hh : w.hurtTimer ≤ 0) (hst : w.wolfState = .CHASE) :
    (wolfUpdate cfg w i).wolfState =
      (if cfg.DETECTION_RANGE * (3/2) < i.dist then WolfState.PATROL
       else if i.dist < cfg.ATTACK_RANGE ∧
          (if 0 < w.attackCooldown then w.attackCooldown - i.delta
           else w.attackCooldown) ≤ 0 then WolfState.ATTACK
       else WolfState.CHASE) := by
  have hnd : ¬(w.wolfState = WolfState.DEAD) := by
    rw [hst]
    exact fun hc => WolfState.noConfusion hc
  rw [wolfUpdate_not_hurt cfg w i hh hnd,
    wolfStateMachine_chase cfg _ i (by rw [wolfTickCooldown_state]; exact hst),
    wolfTickCooldown_cd]
  rfl

/-- C4: hysteresis of the wolf's PATROL/CHASE transitions.  On any tick with
the wolf neither dead nor hurt-frozen: from PATROL the state becomes CHASE
exactly when the distance is below `DETECTION_RANGE` (else it stays PATROL);
from CHASE it reverts to PATROL exactly when the distance exceeds
`1.5 × DETECTION_RANGE`; for distances inside the band
`[DETECTION_RANGE, 1.5 × DETECTION_RANGE]` neither transition fires — PATROL
stays PATROL and CHASE stays CHASE, over a single tick and over any run of
ticks in the band, so the state cannot oscillate there.  (Hypothesis: the
attack range does not exceed the detection range, as in the game's tuning.)
-/
theorem wolf_hysteresis (cfg : WolfConfig)
    (hAR : cfg.ATTACK_RANGE ≤ cfg.DETECTION_RANGE) :
    (∀ (w : Wolf) (i : WolfInput), w.hurtTimer ≤ 0 → w.wolfState = .PATROL →
        (((wolfUpdate cfg w i).wolfState = .CHASE ↔
           i.dist < cfg.DETECTION_RANGE) ∧
         ((wolfUpdate cfg w i).wolfState = .PATROL ↔
           ¬(i.dist < cfg.DETECTION_RANGE)))) ∧
    (∀ (w : Wolf) (i : WolfInput), w.hurtTimer ≤ 0 → w.wolfState = .CHASE →
        ((wolfUpdate cfg w i).wolfState = .PATROL ↔
          cfg.DETECTION_RANGE * (3/2) < i.dist)) ∧
    (∀ (w : Wolf) (i : WolfInput), w.hurtTimer ≤ 0 →
        cfg.DETECTION_RANGE ≤ i.dist → i.dist ≤ cfg.DETECTION_RANGE * (3/2) →
        ((w.wolfState = .PATROL → (wolfUpdate cfg w i).wolfState = .PATROL) ∧
         (w.wolfState = .CHASE → (wolfUpdate cfg w i).wolfState = .CHASE))) ∧
    (∀ (w : Wolf) (is : List WolfInput), w.hurtTimer ≤ 0 →
        (∀ i ∈ is, cfg.DETECTION_RANGE ≤ i.dist ∧
          i.dist ≤ cfg.DETECTION_RANGE * (3/2)) →
        (w.wolfState = .PATROL ∨ w.wolfState = .CHASE) →
        (wolfRun cfg w is).wolfState = w.wolfState) := by
  have band : ∀ (w : Wolf) (i : WolfInput), w.hurtTimer ≤ 0 →
      cfg.DETECTION_RANGE ≤ i.dist → i.dist ≤ cfg.DETECTION_RANGE * (3/2) →
      ((w.wolfState = .PATROL → (wolfUpdate cfg w i).wolfState = .PATROL) ∧
       (w.wolfState = .CHASE → (wolfUpdate cfg w i).wolfState = .CHASE)) := by
    intro w i hh hlo hhi
    constructor
    · intro hst
      rw [wolfUpdate_patrol cfg w i hh hst, if_neg (not_lt.mpr hlo)]
    · intro hst
      have h1 : ¬(cfg.DETECTION_RANGE * (3/2) < i.dist) := not_lt.mpr hhi
      have h2 : ¬(i.dist < cfg.ATTACK_RANGE ∧
          (if 0 < w.attackCooldown then w.attackCooldown - i.delta
           else w.attackCooldown) ≤ 0) :=
        fun hc => absurd hc.1 (not_lt.mpr (le_trans hAR hlo))
      rw [wolfUpdate_chase cfg w i hh hst, if_neg h1, if_neg h2]
  refine ⟨?_, ?_, band, ?_⟩
  · intro w i hh hst
    rw [wolfUpdate_patrol cfg w i hh hst]
    constructor <;> (split_ifs with hd <;> simp [hd])
  · intro w i hh hst
    rw [wolfUpdate_chase cfg w i hh hst]
    split_ifs with h1 h2 <;> simp [h1]
  · intro w is
    induction is generalizing w with
    | nil => intro _ _ _; rfl
    | cons i is ih =>
        intro hh hband hstates
        have hi := hband i (by simp)
        have hstep : (wolfUpdate cfg w i).wolfState = w.wolfState := by
          rcases hstates with hst | hst
          · rw [(band w i hh hi.1 hi.2).1 hst, hst]
          · rw [(band w i hh hi.1 hi.2).2 hst, hst]
        have hrun : wolfRun cfg w (i :: is) =
            wolfRun cfg (wolfUpdate cfg w i) is := by
          simp [wolfRun]
        rw [hrun, ih (wolfUpdate cfg w i)
          (wolfUpdate_hurt_nonpos cfg w i hh)
          (fun j hj => hband j (by simp [hj]))
          (by rw [hstep]; exact hstates), hstep]

/-- Witness for C4: with the spec's tuning (detection 180, attack 80), a
patrolling wolf at distance 170 switches to CHASE; a chasing wolf at
distance 280 (> 270) reverts to PATROL; at distance 200 — inside the
hysteresis band — PATROL stays PATROL and a two-tick run in the band leaves
CHASE unchanged. -/
theorem wolf_hysteresis_witness :
    (wolfUpdate wolfCfg0 sampleWolf (wolfInputAt 170)).wolfState = .CHASE ∧
    (wolfUpdate wolfCfg0 { sampleWolf with wolfState := .CHASE }
      (wolfInputAt 280)).wolfState = .PATROL ∧
    (wolfUpdate wolfCfg0 sampleWolf (wolfInputAt 200)).wolfState = .PATROL ∧
    (wolfRun wolfCfg0 { sampleWolf with wolfState := .CHASE }
      [wolfInputAt 200, wolfInputAt 260]).wolfState = .CHASE := by
  have h := wolf_hysteresis wolfCfg0 (by norm_num [wolfCfg0])
  refine ⟨?_, ?_, ?_, ?_⟩
  · exact (h.1 sampleWolf (wolfInputAt 170) (le_refl 0) rfl).1.mpr
      (by norm_num [wolfCfg0, wolfInputAt])
  · exact (h.2.1 { sampleWolf with wolfState := .CHASE } (wolfInputAt 280)
      (le_refl 0) rfl).mpr (by norm_num [wolfCfg0, wolfInputAt])
  · exact (h.2.2.1 sampleWolf (wolfInputAt 200) (le_refl 0)
      (by norm_num [wolfCfg0, wolfInputAt])
      (by norm_num [wolfCfg0, wolfInputAt])).1 rfl
  · exact h.2.2.2 { sampleWolf with wolfState := .CHASE }
      [wolfInputAt 200, wolfInputAt 260] (le_refl 0)
      (by intro j hj; fin_cases hj <;>
        constructor <;> norm_num [wolfCfg0, wolfInputAt])
      (Or.inr rfl)

/-- Membership in an `addZone` insertion. -/
lemma mem_addZone (z u : CameraZone) :
    ∀ m : List CameraZone, u ∈ addZone m z ↔ u = z ∨ u ∈ m := by
  intro m
  induction m with
  | nil => simp [addZone]
  | cons w ws ih =>
      simp only [addZone]
      split_ifs with hle
      · simp only [List.mem_cons, ih]
        all_goals tauto
      · simp only [List.mem_cons]
        all_goals tauto

/-- `addZone` preserves descending-priority sortedness. -/
lemma addZone_sorted (z : CameraZone) :
    ∀ m : List CameraZone, SortedDesc m → SortedDesc (addZone m z) := by
  intro m
  induction m with
  | nil =>
      intro _
      simp [addZone, SortedDesc]
  | cons w ws ih =>
      intro h
      rcases List.pairwise_cons.mp h with ⟨hw, hws⟩
      simp only [addZone]
      split_ifs with hle
      · refine List.pairwise_cons.mpr ⟨?_, ih hws⟩
        intro u hu
        rcases (mem_addZone z u ws).mp hu with hu | hu
        · rw [hu]
          exact hle
        · exact hw u hu
      · refine List.pairwise_cons.mpr ⟨?_, h⟩
        intro u hu
        rcases List.mem_cons.mp hu with hu | hu
        · rw [hu]
          exact le_of_lt (not_le.mp hle)
        · exact le_trans (hw u hu) (le_of_lt (not_le.mp hle))

/-- The manager's list is always sorted by descending priority. -/
lemma foldl_addZone_sorted :
    ∀ (zs m : List CameraZone), SortedDesc m →
    SortedDesc (zs.foldl addZone m) := by
  intro zs
  induction zs with
  | nil => intro m h; exact h
  | cons z zs ih =>
      intro m h
      exact ih (addZone m z) (addZone_sorted z m h)

/-- Key refinement step: looking up the first qualifying zone after a stable
priority insertion is one fold step of the specification-side selection. -/
lemma find?_addZone (px py : ℚ) (z : CameraZone) :
    ∀ m : List CameraZone, SortedDesc m →
    (addZone m z).find? (fun u => zoneQualifies u px py) =
      specStep px py (m.find? (fun u => zoneQualifies u px py)) z := by
  intro m
  induction m with
  | nil =>
      intro _
      cases hq : zoneQualifies z px py <;>
        simp [addZone, List.find?, specStep, hq]
  | cons w ws ih =>
      intro h
      rcases List.pairwise_cons.mp h with ⟨hw, hws⟩
      simp only [addZone]
      split_ifs with hle
      · cases hq : zoneQualifies w px py with
        | true =>
            have h1 : (w :: addZone ws z).find?
                (fun u => zoneQualifies u px py) = some w := by
              simp only [List.find?, hq]
            have h2 : (w :: ws).find?
                (fun u => zoneQualifies u px py) = some w := by
              simp only [List.find?, hq]
            rw [h1, h2]
            simp only [specStep]
            split_ifs with hz hlt
            · exact absurd hlt (not_lt.mpr hle)
            · rfl
            · rfl
        | false =>
            have h1 : (w :: addZone ws z).find?
                (fun u => zoneQualifies u px py) =
                (addZone ws z).find? (fun u => zoneQualifies u px py) := by
              simp only [List.find?, hq]
            have h2 : (w :: ws).find? (fun u => zoneQualifies u px py) =
                ws.find? (fun u => zoneQualifies u px py) := by
              simp only [List.find?, hq]
            rw [h1, h2]
            exact ih hws
      · cases hq : zoneQualifies z px py with
        | true =>
            have h1 : (z :: w :: ws).find?
                (fun u => zoneQualifies u px py) = some z := by
              simp only [List.find?, hq]
            rw [h1]
            cases hf : (w :: ws).find? (fun u => zoneQualifies u px py) with
            | none => simp [specStep, hq, hf]
            | some u =>
                have hu : u ∈ w :: ws := List.mem_of_find?_eq_some hf
                have hup : u.priority ≤ w.priority := by
                  rcases List.mem_cons.mp hu with hu | hu
                  · rw [hu]
                  · exact hw u hu
                have hlt : u.priority < z.priority :=
                  lt_of_le_of_lt hup (not_le.mp hle)
                simp [specStep, hq, hf, hlt]
        | false =>
            have h1 : (z :: w :: ws).find?
                (fun u => zoneQualifies u px py) =
                (w :: ws).find? (fun u => zoneQualifies u px py) := by
              simp only [List.find?, hq]
            rw [h1]
            cases hf : (w :: ws).find? (fun u => zoneQualifies u px py) <;>
              simp [specStep, hq, hf]

/-- Refinement of the whole build-then-query pipeline. -/
lemma find?_foldl_addZone (px py : ℚ) :
    ∀ (zs m : List CameraZone), SortedDesc m →
    (zs.foldl addZone m).find? (fun u => zoneQualifies u px py) =
      zs.foldl (specStep px py)
        (m.find? (fun u => zoneQualifies u px py)) := by
  intro zs
  induction zs with
  | nil => intro m _; rfl
  | cons z zs ih =>
      intro m h
      have h2 := ih (addZone m z) (addZone_sorted z m h)
      simp only [List.foldl_cons]
      rw [h2, find?_addZone px py z m h]

/-- Along the specification-side fold, the selected priority never
decreases. -/
lemma specFold_mono (px py : ℚ) :
    ∀ (zs : List CameraZone) (u w : CameraZone),
    zs.foldl (specStep px py) (some u) = some w →
    u.priority ≤ w.priority := by
  intro zs
  induction zs with
  | nil =>
      intro u w h
      rw [Option.some_inj.mp h]
  | cons z zs ih =>
      intro u w h
      simp only [List.foldl_cons, specStep] at h
      by_cases hq : zoneQualifies z px py = true
      · rw [if_pos hq] at h
        split_ifs at h with hlt
        · exact le_trans (le_of_lt hlt) (ih z w h)
        · exact ih u w h
      · rw [if_neg hq] at h
        exact ih u w h

/-- Every qualifying zone of the insertion list has priority at most the
selected zone's. -/
lemma specFold_qual_le (px py : ℚ) :
    ∀ (zs : List CameraZone) (acc : Option CameraZone) (w : CameraZone),
    zs.foldl (specStep px py) acc = some w →
    ∀ z ∈ zs, zoneQualifies z px py = true → z.priority ≤ w.priority := by
  intro zs
  induction zs with
  | nil => intro acc w _ z hz; exact absurd hz (List.not_mem_nil z)
  | cons a zs ih =>
      intro acc w h z hz hq
      rcases List.mem_cons.mp hz with hz | hz
      · subst hz
        simp only [List.foldl_cons] at h
        have hstep : ∃ v, specStep px py acc z = some v ∧
            z.priority ≤ v.priority := by
          cases acc with
          | none => exact ⟨z, by simp [specStep, hq], le_refl _⟩
          | some u =>
              by_cases hlt : u.priority < z.priority
              · exact ⟨z, by simp [specStep, hq, hlt], le_refl _⟩
              · exact ⟨u, by simp [specStep, hq, hlt], not_lt.mp hlt⟩
        rcases hstep with ⟨v, hv, hzv⟩
        rw [hv] at h
        exact le_trans hzv (specFold_mono px py zs v w h)
      · exact ih (specStep px py acc a) w h z hz hq


/-- The selected zone comes from the insertion list and qualifies. -/
lemma specFold_mem (px py : ℚ) :
    ∀ (zs : List CameraZone) (acc : Option CameraZone) (w : CameraZone),
    zs.foldl (specStep px py) acc = some w →
    acc = some w ∨ (w ∈ zs ∧ zoneQualifies w px py = true) := by
  intro zs
  induction zs with
  | nil => intro acc w h; exact Or.inl h
  | cons a zs ih =>
      intro acc w h
      simp only [List.foldl_cons] at h
      rcases ih (specStep px py acc a) w h with hstep | hmem
      · by_cases hq : zoneQualifies a px py = true
        · cases acc with
          | none =>
              have ha : specStep px py none a = some a := by
                simp [specStep, hq]
              rw [ha] at hstep
              right
              refine ⟨?_, ?_⟩
              · rw [← Option.some_inj.mp hstep]
                exact List.mem_cons_self a zs
              · rw [← Option.some_inj.mp hstep]
                exact hq
          | some u =>
              have ha : specStep px py (some u) a =
                  (if u.priority < a.priority then some a else some u) := by
                simp [specStep, hq]
              rw [ha] at hstep
              split_ifs at hstep with hlt
              · right
                refine ⟨?_, ?_⟩
                · rw [← Option.some_inj.mp hstep]
                  exact List.mem_cons_self a zs
                · rw [← Option.some_inj.mp hstep]
                  exact hq
              · exact Or.inl hstep
        · have ha : specStep px py acc a = acc := by
            simp [specStep, hq]
          rw [ha] at hstep
          exact Or.inl hstep
      · exact Or.inr ⟨List.mem_cons_of_mem a hmem.1, hmem.2⟩

/-- When the fold selects nothing, no zone of the list qualifies. -/
lemma specFold_none (px py : ℚ) :
    ∀ (zs : List CameraZone) (acc : Option CameraZone),
    zs.foldl (specStep px py) acc = none →
    acc = none ∧ ∀ z ∈ zs, zoneQualifies z px py = false := by
  intro zs
  induction zs with
  | nil => intro acc h; exact ⟨h, by intro z hz; exact absurd hz (List.not_mem_nil z)⟩
  | cons a zs ih =>
      intro acc h
      simp only [List.foldl_cons] at h
      rcases ih (specStep px py acc a) h with ⟨hstep, hrest⟩
      by_cases hq : zoneQualifies a px py = true
      · exfalso
        cases acc with
        | none =>
            have ha : specStep px py none a = some a := by
              simp [specStep, hq]
            rw [ha] at hstep
            exact Option.noConfusion hstep
        | some u =>
            have ha : specStep px py (some u) a =
                (if u.priority < a.priority then some a else some u) := by
              simp [specStep, hq]
            rw [ha] at hstep
            split_ifs at hstep <;> exact Option.noConfusion hstep
      · have hqf : zoneQualifies a px py = false := Bool.eq_false_iff.mpr hq
        have ha : specStep px py acc a = acc := by
          simp [specStep, hq]
        rw [ha] at hstep
        refine ⟨hstep, ?_⟩
        intro z hz
        rcases List.mem_cons.mp hz with hz | hz
        · rw [hz]
          exact hqf
        · exact hrest z hz

/-- C6: `CameraZoneManager.getActiveZone` — zones added by `addZone` (push
plus stable descending sort by priority) and queried by first qualifying
`contains` — returns exactly the specification-side selection: the zone of
highest priority among all non-fired zones whose rectangle contains the
point (none if there is no such zone), and among equal-priority candidates
the zone added first.  The selected zone always belongs to the added zones,
qualifies, and dominates every qualifying zone's priority. -/
theorem camera_zone_selection (zs : List CameraZone) (px py : ℚ) :
    getActiveZone (buildZones zs) px py = specActiveZone zs px py ∧
    (∀ w : CameraZone, specActiveZone zs px py = some w →
      w ∈ zs ∧ zoneQualifies w px py = true ∧
      ∀ z ∈ zs, zoneQualifies z px py = true → z.priority ≤ w.priority) ∧
    (specActiveZone zs px py = none →
      ∀ z ∈ zs, zoneQualifies z px py = false) := by
  refine ⟨?_, ?_, ?_⟩
  · unfold getActiveZone buildZones specActiveZone
    have h := find?_foldl_addZone px py zs [] List.Pairwise.nil
    simpa using h
  · intro w hw
    have hmem := specFold_mem px py zs none w hw
    rcases hmem with hmem | hmem
    · exact Option.noConfusion hmem
    · exact ⟨hmem.1, hmem.2, specFold_qual_le px py zs none w hw⟩
  · intro hnone
    exact (specFold_none px py zs none hnone).2

/-- Witness for C6: of three zones — two identically-prioritized overlapping
zones (first-added wins) and one higher-priority zone not containing the
query point — the manager returns the first-added equal-priority zone, which
qualifies and dominates all qualifying priorities. -/
theorem camera_zone_selection_witness :
    getActiveZone (buildZones [zoneFirst, zoneHigh, zoneSecond]) 10 10 =
      some zoneFirst ∧
    zoneFirst ∈ [zoneFirst, zoneHigh, zoneSecond] ∧
    zoneQualifies zoneFirst 10 10 = true ∧
    (∀ z ∈ [zoneFirst, zoneHigh, zoneSecond],
      zoneQualifies z 10 10 = true → z.priority ≤ zoneFirst.priority) := by
  have h := camera_zone_selection [zoneFirst, zoneHigh, zoneSecond] 10 10
  have hspec : specActiveZone [zoneFirst, zoneHigh, zoneSecond] 10 10 =
      some zoneFirst := by
    norm_num [specActiveZone, specStep, zoneQualifies, zoneContains,
      rectContains, zoneFirst, zoneSecond, zoneHigh]
  have hmax := h.2.1 zoneFirst hspec
  exact ⟨h.1.trans hspec, hmax.1, hmax.2.1, hmax.2.2⟩

/-- Field behavior of the coyote stage. -/
lemma tickCoyote_proj (cfg : PlayerConfig) (s : PlayerState) (delta : ℚ)
    (onGround : Bool) :
    (tickCoyote cfg s delta onGround).coyoteTimer =
      (if onGround then cfg.COYOTE_TIME
       else if 0 < s.coyoteTimer then s.coyoteTimer - delta
       else s.coyoteTimer) ∧
    (tickCoyote cfg s delta onGround).jumpBufferTimer = s.jumpBufferTimer ∧
    (tickCoyote cfg s delta onGround).isDead = s.isDead ∧
    (tickCoyote cfg s delta onGround).vy = s.vy := by
  unfold tickCoyote
  split_ifs <;> exact ⟨rfl, rfl, rfl, rfl⟩

/-- Field behavior of the jump-buffer stage. -/
lemma tickJumpBuffer_proj (s : PlayerState) (delta : ℚ) :
    (tickJumpBuffer s delta).coyoteTimer = s.coyoteTimer ∧
    (tickJumpBuffer s delta).jumpBufferTimer =
      (if 0 < s.jumpBufferTimer then s.jumpBufferTimer - delta
       else s.jumpBufferTimer) ∧
    (tickJumpBuffer s delta).isDead = s.isDead ∧
    (tickJumpBuffer s delta).vy = s.vy := by
  unfold tickJumpBuffer
  split_ifs <;> exact ⟨rfl, rfl, rfl, rfl⟩

/-- The attack-timer stage leaves the jump state alone. -/
lemma tickAttackTimer_proj (s : PlayerState) (delta : ℚ) :
    (tickAttackTimer s delta).coyoteTimer = s.coyoteTimer ∧
    (tickAttackTimer s delta).jumpBufferTimer = s.jumpBufferTimer ∧
    (tickAttackTimer s delta).isDead = s.isDead ∧
    (tickAttackTimer s delta).vy = s.vy := by
  unfold tickAttackTimer
  split_ifs <;> exact ⟨rfl, rfl, rfl, rfl⟩

/-- The invincibility-timer stage leaves the jump state alone. -/
lemma tickInvincibility_proj (s : PlayerState) (delta : ℚ) :
    (tickInvincibility s delta).coyoteTimer = s.coyoteTimer ∧
    (tickInvincibility s delta).jumpBufferTimer = s.jumpBufferTimer ∧
    (tickInvincibility s delta).isDead = s.isDead ∧
    (tickInvincibility s delta).vy = s.vy := by
  unfold tickInvincibility
  split_ifs <;> exact ⟨rfl, rfl, rfl, rfl⟩

/-- The projectile-cooldown stage leaves the jump state alone. -/
lemma tickProjectileCooldown_proj (s : PlayerState) (delta : ℚ) :
    (tickProjectileCooldown s delta).coyoteTimer = s.coyoteTimer ∧
    (tickProjectileCooldown s delta).jumpBufferTimer = s.jumpBufferTimer ∧
    (tickProjectileCooldown s delta).isDead = s.isDead ∧
    (tickProjectileCooldown s delta).vy = s.vy := by
  unfold tickProjectileCooldown
  split_ifs <;> exact ⟨rfl, rfl, rfl, rfl⟩

/-- Field behavior of `updateTimers` on the jump-related state. -/
lemma updateTimers_proj (cfg : PlayerConfig) (s : PlayerState) (delta : ℚ)
    (onGround : Bool) :
    (updateTimers cfg s delta onGround).coyoteTimer =
      (if onGround then cfg.COYOTE_TIME
       else if 0 < s.coyoteTimer then s.coyoteTimer - delta
       else s.coyoteTimer) ∧
    (updateTimers cfg s delta onGround).jumpBufferTimer =
      (if 0 < s.jumpBufferTimer then s.jumpBufferTimer - delta
       else s.jumpBufferTimer) ∧
    (updateTimers cfg s delta onGround).isDead = s.isDead ∧
    (updateTimers cfg s delta onGround).vy = s.vy := by
  unfold updateTimers
  refine ⟨?_, ?_, ?_, ?_⟩
  · rw [(tickProjectileCooldown_proj _ _).1, (tickInvincibility_proj _ _).1,
      (tickAttackTimer_proj _ _).1, (tickJumpBuffer_proj _ _).1,
      (tickCoyote_proj cfg s delta onGround).1]
  · rw [(tickProjectileCooldown_proj _ _).2.1,
      (tickInvincibility_proj _ _).2.1, (tickAttackTimer_proj _ _).2.1,
      (tickJumpBuffer_proj _ _).2.1, (tickCoyote_proj cfg s delta onGround).2.1]
  · rw [(tickProjectileCooldown_proj _ _).2.2.1,
      (tickInvincibility_proj _ _).2.2.1, (tickAttackTimer_proj _ _).2.2.1,
      (tickJumpBuffer_proj _ _).2.2.1,
      (tickCoyote_proj cfg s delta onGround).2.2.1]
  · rw [(tickProjectileCooldown_proj _ _).2.2.2,
      (tickInvincibility_proj _ _).2.2.2, (tickAttackTimer_proj _ _).2.2.2,
      (tickJumpBuffer_proj _ _).2.2.2,
      (tickCoyote_proj cfg s delta onGround).2.2.2]

/-- `handleMovement` only touches `vx` and `facingRight`. -/
lemma handleMovement_proj (cfg : PlayerConfig) (s : PlayerState)
    (l r : Bool) :
    (handleMovement cfg s l r).coyoteTimer = s.coyoteTimer ∧
    (handleMovement cfg s l r).jumpBufferTimer = s.jumpBufferTimer ∧
    (handleMovement cfg s l r).isDead = s.isDead ∧
    (handleMovement cfg s l r).vy = s.vy := by
  simp only [handleMovement]
  split_ifs <;> exact ⟨rfl, rfl, rfl, rfl⟩

/-- `bufferJump` only touches the jump-buffer timer. -/
lemma bufferJump_proj (cfg : PlayerConfig) (s : PlayerState) (jp : Bool) :
    (bufferJump cfg s jp).coyoteTimer = s.coyoteTimer ∧
    (bufferJump cfg s jp).jumpBufferTimer =
      (if jp then cfg.JUMP_BUFFER_TIME else s.jumpBufferTimer) ∧
    (bufferJump cfg s jp).isDead = s.isDead ∧
    (bufferJump cfg s jp).vy = s.vy := by
  simp only [bufferJump]
  split_ifs <;> exact ⟨rfl, rfl, rfl, rfl⟩

/-- The jump-relevant fields of the pre-jump state of a tick. -/
lemma preJumpState_proj (cfg : PlayerConfig) (s : PlayerState)
    (i : PlayerInput) :
    (preJumpState cfg s i).coyoteTimer =
      (updateTimers cfg s i.delta i.onGround).coyoteTimer ∧
    (preJumpState cfg s i).jumpBufferTimer =
      (if i.jumpJustPressed then cfg.JUMP_BUFFER_TIME
       else (updateTimers cfg s i.delta i.onGround).jumpBufferTimer) ∧
    (preJumpState cfg s i).isDead = s.isDead ∧
    (preJumpState cfg s i).vy = s.vy := by
  unfold preJumpState
  have h1 := handleMovement_proj cfg (updateTimers cfg s i.delta i.onGround)
    i.leftDown i.rightDown
  have h2 := bufferJump_proj cfg
    (handleMovement cfg (updateTimers cfg s i.delta i.onGround)
      i.leftDown i.rightDown) i.jumpJustPressed
  have h3 := updateTimers_proj cfg s i.delta i.onGround
  refine ⟨?_, ?_, ?_, ?_⟩
  · rw [h2.1, h1.1]
  · rw [h2.2.1, h1.2.1]
  · rw [h2.2.2.1, h1.2.2.1, h3.2.2.1]
  · rw [h2.2.2.2, h1.2.2.2, h3.2.2.2]

/-- `execJump` when both timers are positive. -/
lemma execJump_pos (cfg : PlayerConfig) (s : PlayerState)
    (h : 0 < s.jumpBufferTimer ∧ 0 < s.coyoteTimer) :
    execJump cfg s =
      { s with vy := cfg.JUMP_FORCE, coyoteTimer := 0,
               jumpBufferTimer := 0 } := by
  unfold execJump
  rw [if_pos h]

/-- `execJump` otherwise. -/
lemma execJump_neg (cfg : PlayerConfig) (s : PlayerState)
    (h : ¬(0 < s.jumpBufferTimer ∧ 0 < s.coyoteTimer)) :
    execJump cfg s = s := by
  unfold execJump
  rw [if_neg h]

/-- `execJump` never changes `isDead`. -/
lemma execJump_isDead (cfg : PlayerConfig) (s : PlayerState) :
    (execJump cfg s).isDead = s.isDead := by
  unfold execJump
  split_ifs <;> rfl

/-- `cutJump` only touches `vy`. -/
lemma cutJump_proj (cfg : PlayerConfig) (s : PlayerState) (d : Bool) :
    (cutJump cfg s d).coyoteTimer = s.coyoteTimer ∧
    (cutJump cfg s d).jumpBufferTimer = s.jumpBufferTimer ∧
    (cutJump cfg s d).isDead = s.isDead := by
  simp only [cutJump]
  split_ifs <;> exact ⟨rfl, rfl, rfl⟩

/-- `cutJump` with the jump key held does nothing. -/
lemma cutJump_held (cfg : PlayerConfig) (s : PlayerState) :
    cutJump cfg s true = s := by
  simp [cutJump]

/-- `cutJump` with the jump key released. -/
lemma cutJump_released (cfg : PlayerConfig) (s : PlayerState) :
    cutJump cfg s false =
      (if s.vy < 0 then { s with vy := s.vy * cfg.JUMP_CUT_MULTIPLIER }
       else s) := by
  simp only [cutJump, Bool.not_false, Bool.true_and]
  split_ifs with h1 h2 h2 <;> simp_all

/-- The vertical velocity after `cutJump`. -/
lemma cutJump_vy (cfg : PlayerConfig) (s : PlayerState) (d : Bool) :
    (cutJump cfg s d).vy =
      (if (!d && decide (s.vy < 0)) = true then
        s.vy * cfg.JUMP_CUT_MULTIPLIER
       else s.vy) := by
  unfold cutJump
  split_ifs <;> rfl

/-- `handleAttack` only touches the attack flags and `vx`. -/
lemma handleAttack_proj (s : PlayerState) (a : Bool) :
    (handleAttack s a).coyoteTimer = s.coyoteTimer ∧
    (handleAttack s a).jumpBufferTimer = s.jumpBufferTimer ∧
    (handleAttack s a).isDead = s.isDead ∧
    (handleAttack s a).vy = s.vy := by
  simp only [handleAttack]
  split_ifs <;> exact ⟨rfl, rfl, rfl, rfl⟩

/-- `handleSubWeapon` only touches the projectile cooldown. -/
lemma handleSubWeapon_proj (cfg : PlayerConfig) (s : PlayerState)
    (sw : Bool) :
    (handleSubWeapon cfg s sw).coyoteTimer = s.coyoteTimer ∧
    (handleSubWeapon cfg s sw).jumpBufferTimer = s.jumpBufferTimer ∧
    (handleSubWeapon cfg s sw).isDead = s.isDead ∧
    (handleSubWeapon cfg s sw).vy = s.vy := by
  simp only [handleSubWeapon]
  split_ifs <;> exact ⟨rfl, rfl, rfl, rfl⟩

/-- `clampFallSpeed` only caps `vy`. -/
lemma clampFallSpeed_proj (cfg : PlayerConfig) (s : PlayerState) :
    (clampFallSpeed cfg s).coyoteTimer = s.coyoteTimer ∧
    (clampFallSpeed cfg s).jumpBufferTimer = s.jumpBufferTimer ∧
    (clampFallSpeed cfg s).isDead = s.isDead ∧
    (clampFallSpeed cfg s).vy =
      (if cfg.MAX_FALL_SPEED < s.vy then cfg.MAX_FALL_SPEED else s.vy) := by
  simp only [clampFallSpeed]
  split_ifs <;> exact ⟨rfl, rfl, rfl, rfl⟩

/-- The dead guard of `Player.update`. -/
lemma playerStep_dead (cfg : PlayerConfig) (s : PlayerState)
    (i : PlayerInput) (hd : s.isDead = true) :
    playerStep cfg s i = (s, false) := by
  simp [playerStep, hd]

/-- An alive tick of `Player.update`, written as its stage composition. -/
lemma playerStep_alive (cfg : PlayerConfig) (s : PlayerState)
    (i : PlayerInput) (hd : s.isDead = false) :
    playerStep cfg s i =
      (clampFallSpeed cfg (handleSubWeapon cfg (handleAttack
          (cutJump cfg (execJump cfg (preJumpState cfg s i)) i.jumpDown)
          i.attackJustPressed) i.subWeaponJustPressed),
       decide (0 < (preJumpState cfg s i).jumpBufferTimer ∧
         0 < (preJumpState cfg s i).coyoteTimer)) := by
  simp [playerStep, hd]

/-- A jump can only fire on an alive tick. -/
lemma jumped_alive (cfg : PlayerConfig) (s : PlayerState) (i : PlayerInput)
    (hj : (playerStep cfg s i).2 = true) : s.isDead = false := by
  by_cases hd : s.isDead = true
  · rw [playerStep_dead cfg s i hd] at hj
    exact absurd hj (by simp)
  · revert hd
    cases s.isDead <;> simp

/-- On an alive tick the jump fires exactly when the pre-jump state has both
timers positive. -/
lemma playerStep_jumped_iff (cfg : PlayerConfig) (s : PlayerState)
    (i : PlayerInput) (hd : s.isDead = false) :
    ((playerStep cfg s i).2 = true ↔
      0 < (preJumpState cfg s i).jumpBufferTimer ∧
      0 < (preJumpState cfg s i).coyoteTimer) := by
  rw [playerStep_alive cfg s i hd]
  exact decide_eq_true_iff

/-- A tick never changes `isDead` (death comes only from `takeDamage`). -/
lemma playerStep_isDead (cfg : PlayerConfig) (s : PlayerState)
    (i : PlayerInput) : (playerStep cfg s i).1.isDead = s.isDead := by
  by_cases hd : s.isDead = true
  · rw [playerStep_dead cfg s i hd]
  · have hd2 : s.isDead = false := by revert hd; cases s.isDead <;> simp
    rw [playerStep_alive cfg s i hd2]
    show (clampFallSpeed cfg _).isDead = s.isDead
    rw [(clampFallSpeed_proj _ _).2.2.1, (handleSubWeapon_proj _ _ _).2.2.1,
      (handleAttack_proj _ _).2.2.1, (cutJump_proj _ _ _).2.2, execJump_isDead,
      (preJumpState_proj cfg s i).2.2.1]

/-- A fired jump zeroes both timers (checked on the final tick state) and
sets the vertical velocity to `JUMP_FORCE` at the execution step. -/
lemma jumped_effects (cfg : PlayerConfig) (s : PlayerState) (i : PlayerInput)
    (hj : (playerStep cfg s i).2 = true) :
    (execJump cfg (preJumpState cfg s i)).vy = cfg.JUMP_FORCE ∧
    (playerStep cfg s i).1.coyoteTimer = 0 ∧
    (playerStep cfg s i).1.jumpBufferTimer = 0 := by
  have hd := jumped_alive cfg s i hj
  have hcond := (playerStep_jumped_iff cfg s i hd).mp hj
  have hexec := execJump_pos cfg (preJumpState cfg s i) hcond
  refine ⟨by rw [hexec], ?_, ?_⟩
  · rw [playerStep_alive cfg s i hd]
    show (clampFallSpeed cfg _).coyoteTimer = 0
    rw [(clampFallSpeed_proj _ _).1, (handleSubWeapon_proj _ _ _).1,
      (handleAttack_proj _ _).1, (cutJump_proj _ _ _).1, hexec]
  · rw [playerStep_alive cfg s i hd]
    show (clampFallSpeed cfg _).jumpBufferTimer = 0
    rw [(clampFallSpeed_proj _ _).2.1, (handleSubWeapon_proj _ _ _).2.1,
      (handleAttack_proj _ _).2.1, (cutJump_proj _ _ _).2.1, hexec]

/-- Final vertical velocity of a tick whose jump fired: `JUMP_FORCE` with
the jump key held, `JUMP_FORCE × JUMP_CUT_MULTIPLIER` if released (the
variable-height cut applies within the same tick). -/
lemma jumped_vy (cfg : PlayerConfig) (s : PlayerState) (i : PlayerInput)
    (hJF : cfg.JUMP_FORCE < 0) (hCut : 0 ≤ cfg.JUMP_CUT_MULTIPLIER)
    (hFall : 0 ≤ cfg.MAX_FALL_SPEED)
    (hj : (playerStep cfg s i).2 = true) :
    (playerStep cfg s i).1.vy =
      (if i.jumpDown then cfg.JUMP_FORCE
       else cfg.JUMP_FORCE * cfg.JUMP_CUT_MULTIPLIER) := by
  have hd := jumped_alive cfg s i hj
  have hcond := (playerStep_jumped_iff cfg s i hd).mp hj
  have hexec := execJump_pos cfg (preJumpState cfg s i) hcond
  have hvyJ : (execJump cfg (preJumpState cfg s i)).vy = cfg.JUMP_FORCE := by
    rw [hexec]
  have hncJ : ¬(cfg.MAX_FALL_SPEED < cfg.JUMP_FORCE) :=
    not_lt.mpr (le_of_lt (lt_of_lt_of_le hJF hFall))
  have hcutle : cfg.JUMP_FORCE * cfg.JUMP_CUT_MULTIPLIER ≤ 0 := by nlinarith
  have hncC : ¬(cfg.MAX_FALL_SPEED <
      cfg.JUMP_FORCE * cfg.JUMP_CUT_MULTIPLIER) :=
    not_lt.mpr (le_trans hcutle hFall)
  rw [playerStep_alive cfg s i hd]
  show (clampFallSpeed cfg _).vy = _
  rw [(clampFallSpeed_proj _ _).2.2.2, (handleSubWeapon_proj _ _ _).2.2.2,
    (handleAttack_proj _ _).2.2.2, cutJump_vy, hvyJ]
  cases hjd : i.jumpDown <;> simp [hJF, hncJ, hncC]

/-- The jump-buffer timer of the final state of a tick. -/
lemma playerStep_buffer (cfg : PlayerConfig) (s : PlayerState)
    (i : PlayerInput) (hd : s.isDead = false) :
    (playerStep cfg s i).1.jumpBufferTimer =
      (execJump cfg (preJumpState cfg s i)).jumpBufferTimer := by
  rw [playerStep_alive cfg s i hd]
  show (clampFallSpeed cfg _).jumpBufferTimer = _
  rw [(clampFallSpeed_proj _ _).2.1, (handleSubWeapon_proj _ _ _).2.1,
    (handleAttack_proj _ _).2.1, (cutJump_proj _ _ _).2.1]

/-- The coyote timer of the final state of a tick. -/
lemma playerStep_coyote (cfg : PlayerConfig) (s : PlayerState)
    (i : PlayerInput) (hd : s.isDead = false) :
    (playerStep cfg s i).1.coyoteTimer =
      (execJump cfg (preJumpState cfg s i)).coyoteTimer := by
  rw [playerStep_alive cfg s i hd]
  show (clampFallSpeed cfg _).coyoteTimer = _
  rw [(clampFallSpeed_proj _ _).1, (handleSubWeapon_proj _ _ _).1,
    (handleAttack_proj _ _).1, (cutJump_proj _ _ _).1]

/-- With no jump press, a nonpositive jump buffer stays nonpositive and no
jump fires. -/
lemma noPress_step (cfg : PlayerConfig) (s : PlayerState) (i : PlayerInput)
    (hp : i.jumpJustPressed = false) (hδ : 0 ≤ i.delta)
    (hb : s.jumpBufferTimer ≤ 0) :
    (playerStep cfg s i).2 = false ∧
    (playerStep cfg s i).1.jumpBufferTimer ≤ 0 := by
  by_cases hd : s.isDead = true
  · rw [playerStep_dead cfg s i hd]
    exact ⟨rfl, hb⟩
  · have hd2 : s.isDead = false := by revert hd; cases s.isDead <;> simp
    have hpre : (preJumpState cfg s i).jumpBufferTimer ≤ 0 := by
      rw [(preJumpState_proj cfg s i).2.1, hp, if_neg (Bool.false_ne_true),
        (updateTimers_proj cfg s i.delta i.onGround).2.1]
      split_ifs with h0
      · linarith
      · exact hb
    have hnc : ¬(0 < (preJumpState cfg s i).jumpBufferTimer ∧
        0 < (preJumpState cfg s i).coyoteTimer) :=
      fun hc => absurd hc.1 (not_lt.mpr hpre)
    constructor
    · rw [playerStep_alive cfg s i hd2]
      simpa using hnc
    · rw [playerStep_buffer cfg s i hd2, execJump_neg cfg _ hnc]
      exact hpre

/-- With no jump presses at all, no jump ever fires from a drained buffer. -/
lemma noPress_run (cfg : PlayerConfig) (is : List PlayerInput) :
    ∀ s : PlayerState,
    (∀ i ∈ is, i.jumpJustPressed = false ∧ 0 ≤ i.delta) →
    s.jumpBufferTimer ≤ 0 → jumpCount cfg s is = 0 := by
  induction is with
  | nil => intro s _ _; rfl
  | cons i is ih =>
      intro s hall hb
      have hi := hall i (by simp)
      have hstep := noPress_step cfg s i hi.1 hi.2 hb
      simp only [jumpCount, hstep.1]
      simpa using ih (playerStep cfg s i).1
        (fun j hj => hall j (by simp [hj])) hstep.2

/-- A fired jump drains the buffer. -/
lemma jumped_buffer_drained (cfg : PlayerConfig) (s : PlayerState)
    (i : PlayerInput) (hj : (playerStep cfg s i).2 = true) :
    (playerStep cfg s i).1.jumpBufferTimer ≤ 0 :=
  le_of_eq (jumped_effects cfg s i hj).2.2

/-- At most one jump fires over any press-free run. -/
lemma jumpCount_le_one (cfg : PlayerConfig) (is : List PlayerInput) :
    ∀ s : PlayerState,
    (∀ i ∈ is, i.jumpJustPressed = false ∧ 0 ≤ i.delta) →
    jumpCount cfg s is ≤ 1 := by
  induction is with
  | nil => intro s _; simp [jumpCount]
  | cons i is ih =>
      intro s hall
      by_cases hj : (playerStep cfg s i).2 = true
      · have hrest := noPress_run cfg is (playerStep cfg s i).1
          (fun j hjm => hall j (by simp [hjm]))
          (jumped_buffer_drained cfg s i hj)
        simp [jumpCount, hj, hrest]
      · have hj2 : (playerStep cfg s i).2 = false := by
          revert hj; cases (playerStep cfg s i).2 <;> simp
        have := ih (playerStep cfg s i).1
          (fun j hjm => hall j (by simp [hjm]))
        simpa [jumpCount, hj2] using this

/-- One airborne tick can only shrink the coyote timer (down to the `max`
envelope). -/
lemma airStep_coyote (cfg : PlayerConfig) (s : PlayerState) (i : PlayerInput)
    (hg : i.onGround = false) (hδ : 0 ≤ i.delta) (hd : s.isDead = false) :
    (playerStep cfg s i).1.coyoteTimer ≤ max (s.coyoteTimer - i.delta) 0 := by
  have hpre : (preJumpState cfg s i).coyoteTimer ≤
      max (s.coyoteTimer - i.delta) 0 := by
    rw [(preJumpState_proj cfg s i).1,
      (updateTimers_proj cfg s i.delta i.onGround).1, hg,
      if_neg (Bool.false_ne_true)]
    split_ifs with h0
    · exact le_max_left _ _
    · exact le_trans (not_lt.mp h0) (le_max_right _ _)
  rw [playerStep_coyote cfg s i hd]
  by_cases hc : 0 < (preJumpState cfg s i).jumpBufferTimer ∧
      0 < (preJumpState cfg s i).coyoteTimer
  · rw [execJump_pos cfg _ hc]
    exact le_trans (le_refl 0) (le_max_right _ _)
  · rw [execJump_neg cfg _ hc]
    exact hpre

/-- A dead player's run is inert. -/
lemma playerRun_dead (cfg : PlayerConfig) (is : List PlayerInput) :
    ∀ s : PlayerState, s.isDead = true → playerRun cfg s is = s := by
  induction is with
  | nil => intro s _; rfl
  | cons i is ih =>
      intro s hd
      have hstep := playerStep_dead cfg s i hd
      simp only [playerRun, List.foldl_cons]
      rw [hstep]
      exact ih s hd

/-- A run never changes `isDead`. -/
lemma playerRun_isDead (cfg : PlayerConfig) (is : List PlayerInput) :
    ∀ s : PlayerState, (playerRun cfg s is).isDead = s.isDead := by
  induction is with
  | nil => intro s; rfl
  | cons i is ih =>
      intro s
      simp only [playerRun, List.foldl_cons]
      rw [show (List.foldl (fun s i => (playerStep cfg s i).1)
        (playerStep cfg s i).1 is) =
        playerRun cfg (playerStep cfg s i).1 is from rfl, ih,
        playerStep_isDead]

/-- Sum of nonnegative deltas is nonnegative. -/
lemma sumDelta_nonneg (is : List PlayerInput)
    (h : ∀ i ∈ is, 0 ≤ i.delta) : 0 ≤ sumDelta is := by
  unfold sumDelta
  refine List.sum_nonneg ?_
  intro q hq
  rcases List.mem_map.mp hq with ⟨i, hi, rfl⟩
  exact h i hi

/-- Max-envelope arithmetic for the coyote countdown. -/
lemma max_sub_le (a r : ℚ) (hr : 0 ≤ r) :
    max (max a 0 - r) 0 ≤ max (a - r) 0 := by
  rcases le_total a 0 with h | h
  · rw [max_eq_right h]
    have h2 : max (0 - r) 0 = 0 := max_eq_right (by linarith)
    rw [h2]
    exact le_max_right _ _
  · rw [max_eq_left h]

/-- Over an airborne run the coyote timer is bounded by its initial value
minus the elapsed time (floored at zero). -/
lemma airRun_coyote (cfg : PlayerConfig) (is : List PlayerInput) :
    ∀ s : PlayerState, s.isDead = false →
    (∀ i ∈ is, i.onGround = false ∧ 0 ≤ i.delta) →
    (playerRun cfg s is).coyoteTimer ≤ max (s.coyoteTimer - sumDelta is) 0
    := by
  induction is with
  | nil =>
      intro s _ _
      have h0 : sumDelta ([] : List PlayerInput) = 0 := rfl
      rw [h0, sub_zero]
      exact le_max_left _ _
  | cons i is ih =>
      intro s hd hall
      have hi := hall i (by simp)
      have hδs : 0 ≤ sumDelta is :=
        sumDelta_nonneg is (fun j hj => (hall j (by simp [hj])).2)
      have hstep := airStep_coyote cfg s i hi.1 hi.2 hd
      have hrun : playerRun cfg s (i :: is) =
          playerRun cfg (playerStep cfg s i).1 is := rfl
      rw [hrun]
      have hih := ih (playerStep cfg s i).1
        (by rw [playerStep_isDead]; exact hd)
        (fun j hj => hall j (by simp [hj]))
      have hmono : max ((playerStep cfg s i).1.coyoteTimer - sumDelta is) 0 ≤
          max (max (s.coyoteTimer - i.delta) 0 - sumDelta is) 0 :=
        max_le_max (sub_le_sub_right hstep _) (le_refl 0)
      have hsum : sumDelta (i :: is) = i.delta + sumDelta is := by
        simp [sumDelta]
      calc (playerRun cfg (playerStep cfg s i).1 is).coyoteTimer
          ≤ max ((playerStep cfg s i).1.coyoteTimer - sumDelta is) 0 := hih
        _ ≤ max (max (s.coyoteTimer - i.delta) 0 - sumDelta is) 0 := hmono
        _ ≤ max (s.coyoteTimer - i.delta - sumDelta is) 0 :=
            max_sub_le _ _ hδs
        _ = max (s.coyoteTimer - sumDelta (i :: is)) 0 := by
            rw [hsum]
            ring_nf

/-- C1: the jump mechanism of `Player.update`.  On an alive tick a jump
executes exactly when the coyote timer and the jump-buffer timer are both
positive at that tick (jump-press buffering applied); when it executes, the
jump step sets the vertical velocity to `JUMP_FORCE` and both timers end the
tick at 0 (the final velocity is `JUMP_FORCE`, or cut by
`JUMP_CUT_MULTIPLIER` within the same tick if the key is already released);
over any run of ticks without a new jump press at most one jump fires; and
after airborne ticks totalling at least the coyote window, a jump press on a
further airborne tick never triggers a jump. -/
theorem jump_mechanics (cfg : PlayerConfig)
    (hJF : cfg.JUMP_FORCE < 0) (hCut : 0 ≤ cfg.JUMP_CUT_MULTIPLIER)
    (hFall : 0 ≤ cfg.MAX_FALL_SPEED) :
    (∀ (s : PlayerState) (i : PlayerInput), s.isDead = false →
        ((playerStep cfg s i).2 = true ↔
          0 < (preJumpState cfg s i).jumpBufferTimer ∧
          0 < (preJumpState cfg s i).coyoteTimer)) ∧
    (∀ (s : PlayerState) (i : PlayerInput),
        (playerStep cfg s i).2 = true →
        (execJump cfg (preJumpState cfg s i)).vy = cfg.JUMP_FORCE ∧
        (playerStep cfg s i).1.coyoteTimer = 0 ∧
        (playerStep cfg s i).1.jumpBufferTimer = 0 ∧
        (playerStep cfg s i).1.vy =
          (if i.jumpDown then cfg.JUMP_FORCE
           else cfg.JUMP_FORCE * cfg.JUMP_CUT_MULTIPLIER)) ∧
    (∀ (s : PlayerState) (is : List PlayerInput),
        (∀ i ∈ is, i.jumpJustPressed = false ∧ 0 ≤ i.delta) →
        jumpCount cfg s is ≤ 1) ∧
    (∀ (s : PlayerState) (is : List PlayerInput) (j : PlayerInput),
        s.coyoteTimer ≤ cfg.COYOTE_TIME →
        (∀ i ∈ is, i.onGround = false ∧ 0 ≤ i.delta) →
        cfg.COYOTE_TIME ≤ sumDelta is →
        j.onGround = false →
        (playerStep cfg (playerRun cfg s is) j).2 = false) := by
  refine ⟨fun s i hd => playerStep_jumped_iff cfg s i hd,
    fun s i hj => ⟨(jumped_effects cfg s i hj).1,
      (jumped_effects cfg s i hj).2.1, (jumped_effects cfg s i hj).2.2,
      jumped_vy cfg s i hJF hCut hFall hj⟩,
    fun s is hall => jumpCount_le_one cfg is s hall, ?_⟩
  intro s is j hc hall hsum hjg
  by_cases hd : s.isDead = true
  · rw [playerRun_dead cfg is s hd, playerStep_dead cfg s j hd]
  · have hd2 : s.isDead = false := by revert hd; cases s.isDead <;> simp
    have hcoy := airRun_coyote cfg is s hd2 hall
    have hcz : (playerRun cfg s is).coyoteTimer ≤ 0 := by
      have hmx : max (s.coyoteTimer - sumDelta is) 0 = 0 :=
        max_eq_right (by linarith)
      rw [hmx] at hcoy
      exact hcoy
    have hdw : (playerRun cfg s is).isDead = false := by
      rw [playerRun_isDead]
      exact hd2
    have hprec : (preJumpState cfg (playerRun cfg s is) j).coyoteTimer ≤ 0
      := by
      rw [(preJumpState_proj cfg _ j).1,
        (updateTimers_proj cfg _ j.delta j.onGround).1, hjg,
        if_neg Bool.false_ne_true]
      split_ifs with h0
      · exact absurd h0 (not_lt.mpr hcz)
      · exact hcz
    have hnc : ¬(0 < (preJumpState cfg (playerRun cfg s is) j).jumpBufferTimer
        ∧ 0 < (preJumpState cfg (playerRun cfg s is) j).coyoteTimer) :=
      fun hc2 => absurd hc2.2 (not_lt.mpr hprec)
    rw [playerStep_alive cfg _ j hdw]
    show decide _ = false
    exact decide_eq_false hnc

/-- Witness for C1: with the documented tuning, a grounded press-and-hold
tick jumps with velocity `-750` and drains both timers; two press-free
airborne ticks yield at most one jump; after a 150 ms airborne tick (longer
than the 100 ms coyote window) an airborne jump press fires no jump. -/
theorem jump_mechanics_witness :
    (playerStep cfg0 sampleGrounded sampleJumpInput).2 = true ∧
    (playerStep cfg0 sampleGrounded sampleJumpInput).1.vy = -750 ∧
    (playerStep cfg0 sampleGrounded sampleJumpInput).1.coyoteTimer = 0 ∧
    (playerStep cfg0 sampleGrounded sampleJumpInput).1.jumpBufferTimer = 0 ∧
    jumpCount cfg0 (playerNew cfg0) [sampleAirInput, sampleAirInput] ≤ 1 ∧
    (playerStep cfg0 (playerRun cfg0 sampleGrounded [sampleLongAirInput])
      sampleAirJumpPress).2 = false := by
  have h := jump_mechanics cfg0 (by norm_num [cfg0]) (by norm_num [cfg0])
    (by norm_num [cfg0])
  have hjump : (playerStep cfg0 sampleGrounded sampleJumpInput).2 = true := by
    refine (h.1 sampleGrounded sampleJumpInput rfl).mpr ?_
    rw [(preJumpState_proj cfg0 sampleGrounded sampleJumpInput).2.1,
      (preJumpState_proj cfg0 sampleGrounded sampleJumpInput).1,
      (updateTimers_proj cfg0 sampleGrounded sampleJumpInput.delta
        sampleJumpInput.onGround).1]
    norm_num [sampleJumpInput, cfg0]
  have heff := h.2.1 sampleGrounded sampleJumpInput hjump
  refine ⟨hjump, ?_, heff.2.1, heff.2.2.1, ?_, ?_⟩
  · have hv := heff.2.2.2
    simpa [sampleJumpInput, cfg0] using hv
  · exact h.2.2.1 (playerNew cfg0) [sampleAirInput, sampleAirInput]
      (by intro i hi; fin_cases hi <;>
        exact ⟨rfl, by norm_num [sampleAirInput]⟩)
  · exact h.2.2.2 sampleGrounded [sampleLongAirInput] sampleAirJumpPress
      (by norm_num [sampleGrounded, playerNew, cfg0])
      (by intro i hi; fin_cases hi <;>
        exact ⟨rfl, by norm_num [sampleLongAirInput, sampleAirInput]⟩)
      (by norm_num [sumDelta, sampleLongAirInput, sampleAirInput, cfg0])
      rfl

end Adventurer
